import Mathlib

/-!
# The FSM pointer engine of `src/src/fsm.c`

A shallow embedding of the pointer engine: the transition lookup, step entry,
the engine loop of the pointer thread, `fsm_start_pointer`, `fsm_join_pointer`
and the blocking and timed waits.

Conventions of the embedding

* A step is referred to by its address, a `Nat`; `NULL` is `none`.
* An identifier (`char uid[MAX_EVENT_UID_LEN]`) is a `String`; `strcmp(a, b) == 0`
  is equality of the two strings.
* The engine thread is a small-step machine over the control points of
  `fsm_pointer_loop`; everything a thread does between two control points is one
  step. Other threads act between the steps of the engine thread (`Tick`).
* A mutex is a `Bool` (`true` when held); locking a held mutex does not return.
* A condition wait hands the mutex back, lets the other threads run a schedule
  of ticks and takes the mutex again.
-/

namespace Fsm

/-! ## Constants of `fsm.h` -/

def FSM_STATE_STOPPED : Nat := 0
def FSM_STATE_RUNNING : Nat := 1
def FSM_STATE_STARTING : Nat := 2
def FSM_STATE_CLOSING : Nat := 3

def FSM_ERR_NOT_STOPPED : Nat := 1

/-- The value of `ETIMEDOUT` in the C library's `errno.h` (110 on Linux); POSIX
requires it to be positive. -/
def ETIMEDOUT : Nat := 110

/-- The reserved identifiers of `events.h`, a header that is not among the sources:
their values are parameters of the development. -/
structure events_h where
  EVENT_START_POINTER_UID : String
  EVENT_STOP_POINTER_UID : String
  EVENT_DIRECT_TRANSITION : String

/-! ## Data model (`fsm.h`) -/

/-- `struct fsm_event`: identifier and payload reference. -/
structure fsm_event where
  uid : String
  args : Nat
deriving DecidableEq, Repr

/-- `struct fsm_transition`: event identifier and target step. -/
structure fsm_transition where
  event_uid : String
  next_step : Nat
deriving DecidableEq, Repr

/-- `struct fsm_step`. The callback `fnct` may be any code: its result is a function
of the number of entry actions run before it (so it may differ from call to call)
and of the event of its context; `none` is a `NULL` result. `args` is only ever
read by the callback. -/
structure fsm_step where
  fnct : Nat → Option fsm_event → Option Nat
  transitions : List fsm_transition

/-- The steps in memory, by address. -/
abbrev Steps := Nat → fsm_step

/-! ## The queue of `fsm_queue.c` -/

/-- Modelled from the spec: `fsm_queue_push_back` and `fsm_queue_push_back_more` of
fsm_queue.c, which is not among the sources. The queue is a FIFO: a pushed value is
stored behind the values already queued. -/
def fsm_queue_push_back {α : Type} (queue : List α) (value : α) : List α :=
  queue ++ [value]

/-- Modelled from the spec: `fsm_queue_pop_front` of fsm_queue.c, which is not among
the sources. It removes and returns the oldest value, `NULL` on an empty queue. -/
def fsm_queue_pop_front {α : Type} (queue : List α) : Option α × List α :=
  match queue with
  | [] => (none, [])
  | v :: rest => (some v, rest)

/-- Modelled from the spec: `fsm_queue_cleanup` of fsm_queue.c, which is not among
the sources. It releases every value still queued. -/
def fsm_queue_cleanup {α : Type} (_queue : List α) : List α :=
  []

/-! ## Transition graph -/

/-- Lines 83-97. The cursor walks the queue from `first`; the first transition
whose `event_uid` compares equal to the event's `uid` is returned, `NULL` (`none`)
when the cursor runs off the end. -/
def _fsm_get_reachable_condition (queue : List fsm_transition) (event : fsm_event) :
    Option fsm_transition :=
  match queue with
  | [] => none
  | cursor :: next =>
    if cursor.event_uid = event.uid then some cursor
    else _fsm_get_reachable_condition next event

/-- Lines 65-69. -/
def _fsm_push_back_transition_queue (queue : List fsm_transition)
    (transition : fsm_transition) : List fsm_transition :=
  fsm_queue_push_back queue transition

/-- Lines 207-215: the transition is built from `to_` and a copy of `event_uid` and
pushed on the transition queue of the step at `from_`. -/
def fsm_connect_step (steps : Steps) (from_ to_ : Nat) (event_uid : String) : Steps :=
  fun a =>
    if a = from_ then
      { fnct := (steps a).fnct
        transitions := _fsm_push_back_transition_queue (steps a).transitions
          { event_uid := event_uid, next_step := to_ } }
    else steps a

/-- Lines 265-271. -/
def fsm_generate_event (event_uid : String) (args : Nat) : fsm_event :=
  { uid := event_uid, args := args }

/-! ## Pointer and engine thread -/

/-- What the engine thread does with events and entry actions, in order: a ghost
record. An event is named by its rank among the events the loop obtained (0 for
the START event, k for the k-th event popped from the inbox). -/
inductive Action where
  | obtain (h : Nat)
  | free (h : Nat)
  | entry (step : Nat) (h : Option Nat)
deriving DecidableEq, Repr

/-- Control points of the engine thread. -/
inductive Pc where
  /-- No thread was created for the pointer. -/
  | unspawned
  /-- Created by `pthread_create`, before line 140. -/
  | spawned
  /-- In `fsm_start_step` for the given step, before the lock of line 118. -/
  | enter (step : Nat)
  /-- In `fsm_start_step` after the unlock of line 124, before the callback of
  line 125 is called. -/
  | call (step : Nat)
  /-- Line 144, the top of the loop. -/
  | top
  /-- Line 162, in `_fsm_get_event_or_wait`. -/
  | wait_event
  /-- Returned from `fsm_pointer_loop`. -/
  | done
  /-- Dereferenced a `NULL` step. -/
  | fault
deriving DecidableEq, Repr

/-- The engine thread: its control point, the locals `new_event` and `ret_step` of
`fsm_pointer_loop`, and the ghost record (`obtained` events so far, `calls` of
entry actions so far, `log`). `new_event` carries the rank of the event it points
to; after `free(new_event)` the variable keeps its value, as in C. -/
structure Thread where
  pc : Pc
  new_event : Option (Nat × fsm_event)
  ret_step : Option Nat
  obtained : Nat
  calls : Nat
  log : List Action
deriving DecidableEq

/-- `struct fsm_pointer`. `thread` is the engine thread behind the `pthread_t`
handle; `mutex` is `true` while held; `history` is a ghost record of every value
assigned to `running`, oldest first. The condition variable has no state. -/
structure fsm_pointer where
  thread : Thread
  mutex : Bool
  input_event : List fsm_event
  current_step : Option Nat
  running : Nat
  history : List Nat
deriving DecidableEq

/-- An assignment to `pointer->running`. -/
def set_running (pointer : fsm_pointer) (v : Nat) : fsm_pointer :=
  { pointer with running := v, history := pointer.history ++ [v] }

/-- Returns `none` when the mutex is held: the caller does not get past the call
until somebody releases it. -/
def pthread_mutex_lock (pointer : fsm_pointer) : Option fsm_pointer :=
  if pointer.mutex then none else some { pointer with mutex := true }

def pthread_mutex_unlock (pointer : fsm_pointer) : fsm_pointer :=
  { pointer with mutex := false }

/-- Lines 218-230. -/
def fsm_create_pointer : fsm_pointer :=
  { thread := { pc := Pc.unspawned, new_event := none, ret_step := none,
                obtained := 0, calls := 0, log := [] }
    mutex := false
    input_event := []
    current_step := none
    running := FSM_STATE_STOPPED
    history := [FSM_STATE_STOPPED] }

/-- Lines 36-38. -/
def _fsm_push_back_event_queue (queue : List fsm_event) (event : fsm_event) :
    List fsm_event :=
  fsm_queue_push_back queue event

/-- Lines 24-26. -/
def _fsm_pop_front_event_queue (queue : List fsm_event) :
    Option fsm_event × List fsm_event :=
  fsm_queue_pop_front queue

/-- Lines 48-55: `none` while the queue is empty (the caller stays in the wait),
otherwise the popped event and the rest of the queue. -/
def _fsm_get_event_or_wait (queue : List fsm_event) :
    Option (Option fsm_event × List fsm_event) :=
  match queue with
  | [] => none
  | _ :: _ => some (_fsm_pop_front_event_queue queue)

/-- Lines 252-254. -/
def fsm_signal_pointer_of_event (pointer : fsm_pointer) (event : fsm_event) :
    fsm_pointer :=
  { pointer with input_event := _fsm_push_back_event_queue pointer.input_event event }

/-- Lines 118-124 of `fsm_start_step`: under the mutex, `current_step` is set and
`running` goes from STARTING to RUNNING; the broadcast wakes the waiters, which
look at the pointer when they next run. `none` while the mutex is held. -/
def fsm_start_step_section (pointer : fsm_pointer) (step : Nat) : Option fsm_pointer :=
  match pthread_mutex_lock pointer with
  | none => none
  | some p1 =>
    let p2 := { p1 with current_step := some step }
    let p3 := if p2.running = FSM_STATE_STARTING then set_running p2 FSM_STATE_RUNNING else p2
    some (pthread_mutex_unlock p3)

/-- Line 125 of `fsm_start_step`: the callback of the step is called with the
context made of the event; its result is what `fsm_start_step` returns, and every
call site assigns it to `ret_step` and goes to the top of the loop. -/
def fsm_start_step_call (steps : Steps) (t : Thread) (step : Nat) : Thread :=
  { t with
    pc := Pc.top
    ret_step := (steps step).fnct t.calls (t.new_event.map Prod.snd)
    calls := t.calls + 1
    log := t.log ++ [Action.entry step (t.new_event.map Prod.fst)] }

/-- `free(new_event)`: releases the event `new_event` points to; `free(NULL)` does
nothing. -/
def free_new_event (t : Thread) : Thread :=
  match t.new_event with
  | none => t
  | some (h, _) => { t with log := t.log ++ [Action.free h] }

/-- An assignment of a fresh event (generated or popped) to `new_event`. -/
def obtain_event (t : Thread) (event : fsm_event) : Thread :=
  { t with
    new_event := some (t.obtained, event)
    obtained := t.obtained + 1
    log := t.log ++ [Action.obtain t.obtained] }

/-- One step of the engine thread, `fsm_pointer_loop` (lines 138-179), from one
control point to the next. A thread that waits (for the mutex at `enter`, for an
event at `wait_event`) or has ended stays where it is. -/
def engine_step (steps : Steps) (ev : events_h) (pointer : fsm_pointer) : fsm_pointer :=
  let t := pointer.thread
  match t.pc with
  | Pc.unspawned => pointer
  | Pc.done => pointer
  | Pc.fault => pointer
  | Pc.spawned =>
    -- line 140, and the call of line 141 on pointer->current_step
    let t1 := obtain_event t (fsm_generate_event ev.EVENT_START_POINTER_UID 0)
    match pointer.current_step with
    | none => { pointer with thread := { t1 with pc := Pc.fault } }
    | some s => { pointer with thread := { t1 with pc := Pc.enter s } }
  | Pc.enter s =>
    match fsm_start_step_section pointer s with
    | none => pointer
    | some p1 => { p1 with thread := { t with pc := Pc.call s } }
  | Pc.call s => { pointer with thread := fsm_start_step_call steps t s }
  | Pc.top =>
    if pointer.running ≠ FSM_STATE_RUNNING then
      -- lines 144-147
      { pointer with thread := { free_new_event t with pc := Pc.done } }
    else
      match t.ret_step with
      | some r =>
        -- lines 148-151
        { pointer with thread := { t with pc := Pc.enter r } }
      | none =>
        match pointer.current_step with
        | none => { pointer with thread := { t with pc := Pc.fault } }
        | some cur =>
          match (steps cur).transitions with
          | first :: _ =>
            if first.event_uid = ev.EVENT_DIRECT_TRANSITION then
              -- lines 153-158
              { pointer with thread := { t with pc := Pc.enter first.next_step } }
            else
              -- line 161
              { pointer with thread := { free_new_event t with pc := Pc.wait_event } }
          | [] =>
            -- line 161
            { pointer with thread := { free_new_event t with pc := Pc.wait_event } }
  | Pc.wait_event =>
    -- lines 162-175
    match _fsm_get_event_or_wait pointer.input_event with
    | none => pointer
    | some (none, rest) =>
      { pointer with
        input_event := rest
        thread := { t with new_event := none, pc := Pc.top } }
    | some (some e, rest) =>
      let t1 := obtain_event t e
      if e.uid = ev.EVENT_STOP_POINTER_UID then
        { pointer with
          input_event := rest
          thread := { free_new_event t1 with pc := Pc.done } }
      else
        match pointer.current_step with
        | none => { pointer with input_event := rest, thread := { t1 with pc := Pc.fault } }
        | some cur =>
          match _fsm_get_reachable_condition (steps cur).transitions e with
          | some reachable_transition =>
            { pointer with
              input_event := rest
              thread := { t1 with pc := Pc.enter reachable_transition.next_step } }
          | none =>
            { pointer with input_event := rest, thread := { t1 with pc := Pc.top } }

/-- The engine thread runs `n` steps. -/
def engine_steps (steps : Steps) (ev : events_h) (n : Nat) (pointer : fsm_pointer) :
    fsm_pointer :=
  match n with
  | 0 => pointer
  | k + 1 => engine_steps steps ev k (engine_step steps ev pointer)

/-! ## Other threads -/

/-- Lines 290-293 of `fsm_join_pointer`, entered with the mutex held and `running`
equal to RUNNING: the STOP event is signalled, `running` becomes CLOSING and the
mutex is released. -/
def fsm_join_pointer_close (ev : events_h) (pointer : fsm_pointer) : fsm_pointer :=
  let p1 := fsm_signal_pointer_of_event pointer
    (fsm_generate_event ev.EVENT_STOP_POINTER_UID 0)
  let p2 := set_running p1 FSM_STATE_CLOSING
  pthread_mutex_unlock p2

/-- What can happen to a pointer while a caller is blocked: the engine thread takes
a step, a thread signals an event, or a thread that calls `fsm_join_pointer` on a
RUNNING pointer gets as far as `pthread_join` (lines 287-294). -/
inductive Tick where
  | engine
  | signal (event : fsm_event)
  | join_request
deriving DecidableEq, Repr

def tick (steps : Steps) (ev : events_h) (pointer : fsm_pointer) (k : Tick) : fsm_pointer :=
  match k with
  | Tick.engine => engine_step steps ev pointer
  | Tick.signal e => fsm_signal_pointer_of_event pointer e
  | Tick.join_request =>
    match pthread_mutex_lock pointer with
    | none => pointer
    | some p1 =>
      if p1.running = FSM_STATE_RUNNING then fsm_join_pointer_close ev p1
      else pthread_mutex_unlock p1

/-- A schedule of ticks, run in order. -/
def run (steps : Steps) (ev : events_h) (sched : List Tick) (pointer : fsm_pointer) :
    fsm_pointer :=
  match sched with
  | [] => pointer
  | k :: rest => run steps ev rest (tick steps ev pointer k)

/-- The caller holds the mutex; the wait releases it, the schedule `wake` runs until
the caller is woken (by a broadcast or spuriously), and the caller holds the mutex
again when the call returns. -/
def pthread_cond_wait (steps : Steps) (ev : events_h) (wake : List Tick)
    (pointer : fsm_pointer) : fsm_pointer :=
  { run steps ev wake (pthread_mutex_unlock pointer) with mutex := true }

/-- The timed wait: as `pthread_cond_wait`, with the return code the wake comes
with (0, `ETIMEDOUT` or another error number). The clock is not part of the
embedding, so the deadline is not looked at. -/
def pthread_cond_timedwait (steps : Steps) (ev : events_h) (wake : Nat × List Tick)
    (_abstime : Int × Int) (pointer : fsm_pointer) : Nat × fsm_pointer :=
  (wake.1, pthread_cond_wait steps ev wake.2 pointer)

/-- The new thread starts at the head of `fsm_pointer_loop` with fresh locals. -/
def pthread_create (pointer : fsm_pointer) : fsm_pointer :=
  { pointer with
    thread := { pointer.thread with pc := Pc.spawned, new_event := none, ret_step := none } }

/-- The caller is blocked while `sched` runs; the call returns if the engine thread
has ended by then and does not return otherwise. -/
def pthread_join (steps : Steps) (ev : events_h) (sched : List Tick)
    (pointer : fsm_pointer) : Option fsm_pointer :=
  let p1 := run steps ev sched pointer
  if p1.thread.pc = Pc.done then some p1 else none

/-! ## `fsm_start_pointer` and `fsm_join_pointer` -/

/-- Lines 243-245: `while (running == STARTING) pthread_cond_wait(...)`, one wake
of `wakes` per wait; `none` when the caller is still waiting after the last. -/
def fsm_start_pointer_wait (steps : Steps) (ev : events_h) (wakes : List (List Tick))
    (pointer : fsm_pointer) : Option fsm_pointer :=
  match wakes with
  | [] => if pointer.running = FSM_STATE_STARTING then none else some pointer
  | w :: ws =>
    if pointer.running = FSM_STATE_STARTING then
      fsm_start_pointer_wait steps ev ws (pthread_cond_wait steps ev w pointer)
    else some pointer

/-- Lines 239-241: the state in which the engine thread is created. -/
def fsm_start_pointer_spawn (pointer : fsm_pointer) (init_step : Nat) : fsm_pointer :=
  let p1 := { pointer with current_step := some init_step }
  let p2 := set_running p1 FSM_STATE_STARTING
  pthread_create p2

/-- Lines 233-248: the returned status and the pointer as the call leaves it;
`none` when the call does not return. -/
def fsm_start_pointer (steps : Steps) (ev : events_h) (wakes : List (List Tick))
    (pointer : fsm_pointer) (init_step : Nat) : Option (Nat × fsm_pointer) :=
  match pthread_mutex_lock pointer with
  | none => none
  | some p1 =>
    if p1.running ≠ FSM_STATE_STOPPED then
      -- lines 236-237
      some (FSM_ERR_NOT_STOPPED, p1)
    else
      match fsm_start_pointer_wait steps ev wakes (fsm_start_pointer_spawn p1 init_step) with
      | none => none
      | some p2 => some (0, pthread_mutex_unlock p2)

/-- Lines 287-300, for a pointer that is not `NULL`; `sched` is what happens while
the caller is in `pthread_join`. `none` when the call does not return. -/
def fsm_join_pointer (steps : Steps) (ev : events_h) (sched : List Tick)
    (pointer : fsm_pointer) : Option fsm_pointer :=
  match pthread_mutex_lock pointer with
  | none => none
  | some p1 =>
    if p1.running = FSM_STATE_RUNNING then
      match pthread_join steps ev sched (fsm_join_pointer_close ev p1) with
      | none => none
      | some p2 =>
        match pthread_mutex_lock p2 with
        | none => none
        | some p3 =>
          let p4 := set_running p3 FSM_STATE_STOPPED
          some (pthread_mutex_unlock
            { p4 with input_event := fsm_queue_cleanup p4.input_event })
    else
      some (pthread_mutex_unlock
        { p1 with input_event := fsm_queue_cleanup p1.input_event })

/-! ## Waits -/

/-- The loop condition of lines 322 and 335; `leave` is a `char`. -/
def wait_condition (pointer : fsm_pointer) (step : Option Nat) (leave : Nat) : Bool :=
  (pointer.current_step = step && leave = 1) || (pointer.current_step ≠ step && leave = 0)

/-- Lines 335-337, one wake of `wakes` per wait. The result counts the waits made
(a ghost value); `none` when the caller is still waiting after the last wake. -/
def _fsm_wait_step_blocking_loop (steps : Steps) (ev : events_h) (step : Option Nat)
    (leave : Nat) (wakes : List (List Tick)) (pointer : fsm_pointer) :
    Option (Nat × fsm_pointer) :=
  match wakes with
  | [] => if wait_condition pointer step leave then none else some (0, pointer)
  | w :: ws =>
    if wait_condition pointer step leave then
      match _fsm_wait_step_blocking_loop steps ev step leave ws
          (pthread_cond_wait steps ev w pointer) with
      | none => none
      | some (n, p) => some (n + 1, p)
    else some (0, pointer)

/-- Lines 332-339. The C function returns nothing; the result is the number of
condition waits made and the pointer as the call leaves it. -/
def _fsm_wait_step_blocking (steps : Steps) (ev : events_h) (wakes : List (List Tick))
    (pointer : fsm_pointer) (step : Option Nat) (leave : Nat) : Option (Nat × fsm_pointer) :=
  match pthread_mutex_lock pointer with
  | none => none
  | some p1 =>
    match _fsm_wait_step_blocking_loop steps ev step leave wakes p1 with
    | none => none
    | some (n, p2) => some (n, pthread_mutex_unlock p2)

/-- Lines 342-344. -/
def fsm_wait_step_blocking (steps : Steps) (ev : events_h) (wakes : List (List Tick))
    (pointer : fsm_pointer) (step : Option Nat) : Option (Nat × fsm_pointer) :=
  _fsm_wait_step_blocking steps ev wakes pointer step 0

/-- Lines 346-348. -/
def fsm_wait_leaving_step_blocking (steps : Steps) (ev : events_h)
    (wakes : List (List Tick)) (pointer : fsm_pointer) (step : Option Nat) :
    Option (Nat × fsm_pointer) :=
  _fsm_wait_step_blocking steps ev wakes pointer step 1

/-- Lines 315-318: the deadline from the clock reading `ts` (`tv_sec`, `tv_nsec`)
and the bound in milliseconds. `1000 * 1000 * (mstimeout % 1000)` is computed in
`unsigned int`, so modulo 2^32; `tv_sec` and `tv_nsec` are signed, where `/` and
`%` truncate. -/
def deadline (ts : Int × Int) (mstimeout : Nat) : Int × Int :=
  let tv_sec := ts.1 + ((mstimeout / 1000 : Nat) : Int)
  let tv_nsec := ts.2 + ((1000 * 1000 * (mstimeout % 1000) % 2 ^ 32 : Nat) : Int)
  let tv_sec := tv_sec + Int.tdiv tv_nsec (1000 * 1000 * 1000)
  let tv_nsec := Int.tmod tv_nsec (1000 * 1000 * 1000)
  (tv_sec, tv_nsec)

/-- Lines 322-327, one wake of `wakes` per timed wait, `rc` the value of the
variable `rc` on entry; the result is `rc` when the loop is left. -/
def _fsm_wait_step_mstimeout_loop (steps : Steps) (ev : events_h) (step : Option Nat)
    (leave : Nat) (ts : Int × Int) (wakes : List (Nat × List Tick)) (rc : Nat)
    (pointer : fsm_pointer) : Option (Nat × fsm_pointer) :=
  match wakes with
  | [] => if wait_condition pointer step leave then none else some (rc, pointer)
  | w :: ws =>
    if wait_condition pointer step leave then
      let r := pthread_cond_timedwait steps ev w ts pointer
      if r.1 = ETIMEDOUT then some (r.1, r.2)
      else _fsm_wait_step_mstimeout_loop steps ev step leave ts ws r.1 r.2
    else some (rc, pointer)

/-- Lines 306-330; `now` is what `clock_gettime` reads. -/
def _fsm_wait_step_mstimeout (steps : Steps) (ev : events_h) (now : Int × Int)
    (wakes : List (Nat × List Tick)) (pointer : fsm_pointer) (step : Option Nat)
    (mstimeout : Nat) (leave : Nat) : Option (Nat × fsm_pointer) :=
  let ts := deadline now mstimeout
  match pthread_mutex_lock pointer with
  | none => none
  | some p1 =>
    match _fsm_wait_step_mstimeout_loop steps ev step leave ts wakes 0 p1 with
    | none => none
    | some (rc, p2) => some (rc, pthread_mutex_unlock p2)

/-- Lines 350-352. -/
def fsm_wait_step_mstimeout (steps : Steps) (ev : events_h) (now : Int × Int)
    (wakes : List (Nat × List Tick)) (pointer : fsm_pointer) (step : Option Nat)
    (mstimeout : Nat) : Option (Nat × fsm_pointer) :=
  _fsm_wait_step_mstimeout steps ev now wakes pointer step mstimeout 0

/-- Lines 354-356. -/
def fsm_wait_leaving_step_mstimeout (steps : Steps) (ev : events_h) (now : Int × Int)
    (wakes : List (Nat × List Tick)) (pointer : fsm_pointer) (step : Option Nat)
    (mstimeout : Nat) : Option (Nat × fsm_pointer) :=
  _fsm_wait_step_mstimeout steps ev now wakes pointer step mstimeout 1

/-! ## Steps and machines used as concrete inputs -/

/-- Lines 302-304. -/
def fsm_null_callback : Nat → Option fsm_event → Option Nat :=
  fun _ _ => none

/-- Lines 192-204: a step with the given callback and an empty transition queue
(the registry of created steps is not part of the embedding). -/
def fsm_create_step (fnct : Nat → Option fsm_event → Option Nat) : fsm_step :=
  { fnct := fnct, transitions := [] }

def exampleEvents : events_h :=
  { EVENT_START_POINTER_UID := "START"
    EVENT_STOP_POINTER_UID := "STOP"
    EVENT_DIRECT_TRANSITION := "DIRECT" }

/-- Step 0 --"GO"--> step 1 --"BACK"--> step 0, every callback `fsm_null_callback`. -/
def exampleSteps : Steps :=
  fsm_connect_step
    (fsm_connect_step (fun _ => fsm_create_step fsm_null_callback) 0 1 "GO") 1 0 "BACK"

/-- A direct loop: step 0 --DIRECT--> step 1 --DIRECT--> step 0. -/
def exampleDirectSteps : Steps :=
  fsm_connect_step
    (fsm_connect_step (fun _ => fsm_create_step fsm_null_callback) 0 1 "DIRECT") 1 0 "DIRECT"

/-- Step 0 redirects to step 1 by its callback's result; no transition at all. -/
def exampleRedirectSteps : Steps :=
  fun a => if a = 0 then fsm_create_step (fun _ _ => some 1)
    else fsm_create_step fsm_null_callback

/-- A pointer started at step 0 whose engine thread has entered step 0, run its
callback and is back at the top of the loop. -/
def exampleStarted (steps : Steps) : fsm_pointer :=
  run steps exampleEvents [Tick.engine, Tick.engine, Tick.engine]
    (fsm_start_pointer_spawn fsm_create_pointer 0)

/-! ## Ownership of events -/

/-- The ranks of the events a log releases, in order. -/
def freed (log : List Action) : List Nat :=
  log.filterMap fun a => match a with
    | Action.free h => some h
    | _ => none

/-- The ranks of the events a log obtains, in order. -/
def obtainedIn (log : List Action) : List Nat :=
  log.filterMap fun a => match a with
    | Action.obtain h => some h
    | _ => none

/-- The event the engine thread holds and has not released, as a list of ranks: the
one `new_event` points to, except where the thread has just released it (it is
about to pop or has ended) or has not yet run. -/
def holding (t : Thread) : List Nat :=
  match t.pc with
  | Pc.wait_event => []
  | Pc.done => []
  | Pc.spawned => []
  | Pc.unspawned => []
  | _ => (t.new_event.map Prod.fst).toList

/-- The engine thread and its events: the events obtained are those of rank below
`obtained`, and the events released followed by the event held are exactly the
events obtained. -/
def EventsBalanced (t : Thread) : Prop :=
  obtainedIn t.log = List.range t.obtained ∧
  freed t.log ++ holding t = List.range t.obtained

/-! ## The run-state lifecycle -/

/-- The edges STOPPED → STARTING → RUNNING → CLOSING → STOPPED. -/
def lifecycle_edge (a b : Nat) : Bool :=
  (a == FSM_STATE_STOPPED && b == FSM_STATE_STARTING) ||
  (a == FSM_STATE_STARTING && b == FSM_STATE_RUNNING) ||
  (a == FSM_STATE_RUNNING && b == FSM_STATE_CLOSING) ||
  (a == FSM_STATE_CLOSING && b == FSM_STATE_STOPPED)

/-- What an operation that takes the pointer from `p` to `q` did to `running`: the
values it assigned, in order, are what `q.history` has more than `p.history`; each
assignment follows an edge of the lifecycle, starting from `p.running`, and
`q.running` is the last value assigned (`p.running` when there is none). -/
def Writes (p q : fsm_pointer) : Prop :=
  ∃ added : List Nat, q.history = p.history ++ added ∧
    List.Chain' (fun a b => lifecycle_edge a b = true) (p.running :: added) ∧
    (p.running :: added).getLast? = some q.running

/-- The started pointer of `exampleSteps` after "GO" and "BACK": the engine left
step 0 for step 1 and came back to step 0. -/
def exampleReentered : fsm_pointer :=
  run exampleSteps exampleEvents
    [Tick.signal (fsm_generate_event "GO" 0), Tick.signal (fsm_generate_event "BACK" 0),
     Tick.engine, Tick.engine, Tick.engine, Tick.engine,
     Tick.engine, Tick.engine, Tick.engine, Tick.engine]
    (exampleStarted exampleSteps)

/-- The steps whose entry action a log calls, in order. -/
def entered (log : List Action) : List Nat :=
  log.filterMap fun a => match a with
    | Action.entry s _ => some s
    | _ => none

/-- The pointer a waiter looks at after the timed waits `before`, from `pointer`. -/
def waited (steps : Steps) (ev : events_h) (before : List (Nat × List Tick))
    (pointer : fsm_pointer) : fsm_pointer :=
  before.foldl (fun acc w => pthread_cond_wait steps ev w.2 acc) pointer

/-! ## The transition lookup -/

theorem lookup_eq_some_iff (queue : List fsm_transition) (event : fsm_event)
    (t : fsm_transition) :
    _fsm_get_reachable_condition queue event = some t ↔
      ∃ before after, queue = before ++ t :: after ∧ t.event_uid = event.uid ∧
        ∀ x ∈ before, x.event_uid ≠ event.uid := by
  induction queue with
  | nil => simp [_fsm_get_reachable_condition]
  | cons c rest ih =>
    unfold _fsm_get_reachable_condition
    by_cases hc : c.event_uid = event.uid
    · rw [if_pos hc]
      constructor
      · intro h
        cases h
        exact ⟨[], rest, rfl, hc, by simp⟩
      · rintro ⟨before, after, hq, _, hb⟩
        cases before with
        | nil =>
          simp only [List.nil_append, List.cons.injEq] at hq
          rw [hq.1]
        | cons b bs =>
          simp only [List.cons_append, List.cons.injEq] at hq
          exact absurd (hq.1 ▸ hc) (hb b (List.mem_cons_self _ _))
    · rw [if_neg hc, ih]
      constructor
      · rintro ⟨before, after, hq, ht, hb⟩
        refine ⟨c :: before, after, by simp [hq], ht, ?_⟩
        intro x hx
        rcases List.mem_cons.mp hx with rfl | hx
        · exact hc
        · exact hb x hx
      · rintro ⟨before, after, hq, ht, hb⟩
        cases before with
        | nil =>
          simp only [List.nil_append, List.cons.injEq] at hq
          exact absurd (hq.1 ▸ ht) hc
        | cons b bs =>
          simp only [List.cons_append, List.cons.injEq] at hq
          exact ⟨bs, after, hq.2, ht, fun x hx => hb x (List.mem_cons_of_mem _ hx)⟩

theorem lookup_eq_none_iff (queue : List fsm_transition) (event : fsm_event) :
    _fsm_get_reachable_condition queue event = none ↔
      ∀ x ∈ queue, x.event_uid ≠ event.uid := by
  induction queue with
  | nil => simp [_fsm_get_reachable_condition]
  | cons c rest ih =>
    unfold _fsm_get_reachable_condition
    by_cases hc : c.event_uid = event.uid
    · simp [hc]
    · simp [hc, ih]

theorem lookup_append_of_some (queue more : List fsm_transition) (event : fsm_event)
    (t : fsm_transition) (h : _fsm_get_reachable_condition queue event = some t) :
    _fsm_get_reachable_condition (queue ++ more) event = some t := by
  induction queue with
  | nil => simp [_fsm_get_reachable_condition] at h
  | cons c rest ih =>
    unfold _fsm_get_reachable_condition at h
    simp only [List.cons_append]
    unfold _fsm_get_reachable_condition
    by_cases hc : c.event_uid = event.uid
    · simpa [hc] using h
    · rw [if_neg hc] at h
      rw [if_neg hc]
      exact ih h

/-- C1: the lookup returns a transition exactly when it is the first one of the
queue, in insertion order, whose `event_uid` equals the event's `uid`, and returns
`NULL` exactly when no transition of the queue has that `uid`. -/
theorem C1_lookup_first_match (queue : List fsm_transition) (event : fsm_event) :
    (∀ t, _fsm_get_reachable_condition queue event = some t ↔
      ∃ before after, queue = before ++ t :: after ∧ t.event_uid = event.uid ∧
        ∀ x ∈ before, x.event_uid ≠ event.uid) ∧
    (_fsm_get_reachable_condition queue event = none ↔
      ∀ x ∈ queue, x.event_uid ≠ event.uid) :=
  ⟨fun t => lookup_eq_some_iff queue event t, lookup_eq_none_iff queue event⟩

/-- C10: `fsm_connect_step` puts the transition made of `event_uid` and `to_` behind
the transitions `from_` already has, which keep their order, and changes no other
step; so a transition the lookup found before is the one it finds afterwards,
whatever is connected later. -/
theorem C10_connect_step_appends (steps : Steps) (from_ to_ : Nat) (event_uid : String) :
    ((fsm_connect_step steps from_ to_ event_uid) from_).transitions =
        (steps from_).transitions ++ [{ event_uid := event_uid, next_step := to_ }] ∧
    ((fsm_connect_step steps from_ to_ event_uid) from_).fnct = (steps from_).fnct ∧
    (∀ a, a ≠ from_ → (fsm_connect_step steps from_ to_ event_uid) a = steps a) ∧
    (∀ event t, _fsm_get_reachable_condition (steps from_).transitions event = some t →
      _fsm_get_reachable_condition
        ((fsm_connect_step steps from_ to_ event_uid) from_).transitions event = some t) := by
  have h1 : ((fsm_connect_step steps from_ to_ event_uid) from_).transitions =
      (steps from_).transitions ++ [{ event_uid := event_uid, next_step := to_ }] := by
    simp [fsm_connect_step, _fsm_push_back_transition_queue, fsm_queue_push_back]
  refine ⟨h1, by simp [fsm_connect_step], ?_, ?_⟩
  · intro a ha
    simp [fsm_connect_step, ha]
  · intro event t h
    rw [h1]
    exact lookup_append_of_some _ _ _ _ h

/-! ## The engine thread -/

@[simp] theorem free_new_event_pc (t : Thread) : (free_new_event t).pc = t.pc := by
  unfold free_new_event; split <;> rfl

@[simp] theorem free_new_event_new_event (t : Thread) :
    (free_new_event t).new_event = t.new_event := by
  unfold free_new_event; split <;> simp_all

@[simp] theorem free_new_event_ret_step (t : Thread) :
    (free_new_event t).ret_step = t.ret_step := by
  unfold free_new_event; split <;> rfl

@[simp] theorem free_new_event_obtained (t : Thread) :
    (free_new_event t).obtained = t.obtained := by
  unfold free_new_event; split <;> rfl

@[simp] theorem free_new_event_calls (t : Thread) :
    (free_new_event t).calls = t.calls := by
  unfold free_new_event; split <;> rfl


/-- C2: a running pointer at step `s` with no pending redirection and no DIRECT
first transition pops an event `e` that is not STOP. When the lookup finds a
transition, the loop comes back to its top with `current_step` the target of that
transition, the target's entry action called once with `e`; when it finds none,
`current_step` is still `s` and no entry action was called. -/
theorem C2_dispatch (steps : Steps) (ev : events_h) (p : fsm_pointer) (s : Nat)
    (e : fsm_event) (rest : List fsm_event)
    (hpc : p.thread.pc = Pc.top) (hrun : p.running = FSM_STATE_RUNNING)
    (hret : p.thread.ret_step = none) (hcur : p.current_step = some s)
    (hdirect : ∀ first tail, (steps s).transitions = first :: tail →
      first.event_uid ≠ ev.EVENT_DIRECT_TRANSITION)
    (hinbox : p.input_event = e :: rest) (hstop : e.uid ≠ ev.EVENT_STOP_POINTER_UID)
    (hmutex : p.mutex = false) :
    (∀ tr, _fsm_get_reachable_condition (steps s).transitions e = some tr →
      (engine_steps steps ev 4 p).thread.pc = Pc.top ∧
      (engine_steps steps ev 4 p).current_step = some tr.next_step ∧
      (engine_steps steps ev 4 p).input_event = rest ∧
      (engine_steps steps ev 4 p).thread.log = (free_new_event p.thread).log ++
        [Action.obtain p.thread.obtained,
         Action.entry tr.next_step (some p.thread.obtained)] ∧
      (engine_steps steps ev 4 p).thread.ret_step =
        (steps tr.next_step).fnct p.thread.calls (some e)) ∧
    (_fsm_get_reachable_condition (steps s).transitions e = none →
      (engine_steps steps ev 2 p).thread.pc = Pc.top ∧
      (engine_steps steps ev 2 p).current_step = some s ∧
      (engine_steps steps ev 2 p).input_event = rest ∧
      (engine_steps steps ev 2 p).thread.log = (free_new_event p.thread).log ++
        [Action.obtain p.thread.obtained] ∧
      (engine_steps steps ev 2 p).thread.calls = p.thread.calls) := by
  obtain ⟨⟨pc, ne, rs, ob, ca, lg⟩, mu, inbox, cur, rn, hist⟩ := p
  simp only at hpc hrun hret hcur hinbox hmutex
  subst hpc hrun hret hcur hinbox hmutex
  constructor
  · intro tr htr
    cases htrs : (steps s).transitions with
    | nil => rw [htrs] at htr; simp [_fsm_get_reachable_condition] at htr
    | cons first tail =>
      have hd := hdirect first tail htrs
      rw [htrs] at htr
      simp [engine_steps, engine_step, htrs, hd, _fsm_get_event_or_wait,
        _fsm_pop_front_event_queue, fsm_queue_pop_front, obtain_event, hstop, htr,
        fsm_start_step_call, fsm_start_step_section, pthread_mutex_lock,
        pthread_mutex_unlock, set_running, FSM_STATE_RUNNING, FSM_STATE_STARTING]
  · intro hnone
    cases htrs : (steps s).transitions with
    | nil =>
      simp [engine_steps, engine_step, htrs, _fsm_get_event_or_wait,
        _fsm_pop_front_event_queue, fsm_queue_pop_front, obtain_event, hstop,
        _fsm_get_reachable_condition, FSM_STATE_RUNNING]
    | cons first tail =>
      have hd := hdirect first tail htrs
      rw [htrs] at hnone
      simp [engine_steps, engine_step, htrs, hd, _fsm_get_event_or_wait,
        _fsm_pop_front_event_queue, fsm_queue_pop_front, obtain_event, hstop, hnone,
        FSM_STATE_RUNNING]

/-- C2, at a concrete input: with step 0 --"GO"--> step 1 and the inbox holding
"NOPE" then "GO", handling "NOPE" leaves `current_step` at step 0 with no further
entry action, and handling "GO" after it moves `current_step` to step 1. -/
theorem C2_dispatch_witness :
    (engine_steps exampleSteps exampleEvents 2
      (run exampleSteps exampleEvents
        [Tick.signal (fsm_generate_event "NOPE" 0), Tick.signal (fsm_generate_event "GO" 0)]
        (exampleStarted exampleSteps))).current_step = some 0 ∧
    (engine_steps exampleSteps exampleEvents 2
      (run exampleSteps exampleEvents
        [Tick.signal (fsm_generate_event "NOPE" 0), Tick.signal (fsm_generate_event "GO" 0)]
        (exampleStarted exampleSteps))).thread.calls = 1 ∧
    (engine_steps exampleSteps exampleEvents 4
      (engine_steps exampleSteps exampleEvents 2
        (run exampleSteps exampleEvents
          [Tick.signal (fsm_generate_event "NOPE" 0), Tick.signal (fsm_generate_event "GO" 0)]
          (exampleStarted exampleSteps)))).current_step = some 1 :=
  ⟨((C2_dispatch exampleSteps exampleEvents
      (run exampleSteps exampleEvents
        [Tick.signal (fsm_generate_event "NOPE" 0), Tick.signal (fsm_generate_event "GO" 0)]
        (exampleStarted exampleSteps)) 0 (fsm_generate_event "NOPE" 0)
      [fsm_generate_event "GO" 0] (by decide) (by decide) (by decide) (by decide)
      (by intro first tail h; cases h; decide) (by decide) (by decide) (by decide)).2
      (by decide)).2.1,
   ((C2_dispatch exampleSteps exampleEvents
      (run exampleSteps exampleEvents
        [Tick.signal (fsm_generate_event "NOPE" 0), Tick.signal (fsm_generate_event "GO" 0)]
        (exampleStarted exampleSteps)) 0 (fsm_generate_event "NOPE" 0)
      [fsm_generate_event "GO" 0] (by decide) (by decide) (by decide) (by decide)
      (by intro first tail h; cases h; decide) (by decide) (by decide) (by decide)).2
      (by decide)).2.2.2.2,
   ((C2_dispatch exampleSteps exampleEvents
      (engine_steps exampleSteps exampleEvents 2
        (run exampleSteps exampleEvents
          [Tick.signal (fsm_generate_event "NOPE" 0), Tick.signal (fsm_generate_event "GO" 0)]
          (exampleStarted exampleSteps))) 0 (fsm_generate_event "GO" 0)
      [] (by decide) (by decide) (by decide) (by decide)
      (by intro first tail h; cases h; decide) (by decide) (by decide) (by decide)).1
      { event_uid := "GO", next_step := 1 } (by decide)).2.1⟩

/-- C4: a running pointer with no pending redirection whose current step has a
DIRECT first transition enters the target of that transition with the event it
holds: nothing is popped or obtained, the inbox is unchanged, and `current_step` is
the target when the loop is back at its top. -/
theorem C4_direct_transition (steps : Steps) (ev : events_h) (p : fsm_pointer) (s : Nat)
    (first : fsm_transition) (tail : List fsm_transition)
    (hpc : p.thread.pc = Pc.top) (hrun : p.running = FSM_STATE_RUNNING)
    (hret : p.thread.ret_step = none) (hcur : p.current_step = some s)
    (htrs : (steps s).transitions = first :: tail)
    (hdirect : first.event_uid = ev.EVENT_DIRECT_TRANSITION) (hmutex : p.mutex = false) :
    (engine_step steps ev p).thread.pc = Pc.enter first.next_step ∧
    (engine_steps steps ev 3 p).thread.pc = Pc.top ∧
    (engine_steps steps ev 3 p).current_step = some first.next_step ∧
    (engine_steps steps ev 3 p).input_event = p.input_event ∧
    (engine_steps steps ev 3 p).thread.new_event = p.thread.new_event ∧
    (engine_steps steps ev 3 p).thread.obtained = p.thread.obtained ∧
    (engine_steps steps ev 3 p).thread.log = p.thread.log ++
      [Action.entry first.next_step (p.thread.new_event.map Prod.fst)] ∧
    (engine_steps steps ev 3 p).thread.ret_step =
      (steps first.next_step).fnct p.thread.calls (p.thread.new_event.map Prod.snd) := by
  obtain ⟨⟨pc, ne, rs, ob, ca, lg⟩, mu, inbox, cur, rn, hist⟩ := p
  simp only at hpc hrun hret hcur hmutex
  subst hpc hrun hret hcur hmutex
  simp [engine_steps, engine_step, htrs, hdirect, fsm_start_step_call,
    fsm_start_step_section, pthread_mutex_lock, pthread_mutex_unlock, set_running,
    FSM_STATE_RUNNING, FSM_STATE_STARTING]

/-- C4, at a concrete input: in the direct loop step 0 --DIRECT--> step 1, the
started pointer goes on to step 1 with an empty inbox. -/
theorem C4_direct_transition_witness :
    (engine_steps exampleDirectSteps exampleEvents 3
      (exampleStarted exampleDirectSteps)).current_step = some 1 ∧
    (engine_steps exampleDirectSteps exampleEvents 3
      (exampleStarted exampleDirectSteps)).input_event = [] :=
  ⟨(C4_direct_transition exampleDirectSteps exampleEvents (exampleStarted exampleDirectSteps)
      0 { event_uid := "DIRECT", next_step := 1 } [] (by decide) (by decide) (by decide)
      (by decide) (by decide) (by decide) (by decide)).2.2.1,
   (C4_direct_transition exampleDirectSteps exampleEvents (exampleStarted exampleDirectSteps)
      0 { event_uid := "DIRECT", next_step := 1 } [] (by decide) (by decide) (by decide)
      (by decide) (by decide) (by decide) (by decide)).2.2.2.1⟩

/-- C5: when the entry action of a step `s` returns a step `r` that is not `NULL`
on a running pointer, the engine's next action is the entry of `r` with the event
it holds: the inbox, the held event and the count of obtained events are
unchanged, and the transitions play no part, since any other transition tables
give the same result. -/
theorem C5_redirection (steps : Steps) (ev : events_h) (p : fsm_pointer) (s r : Nat)
    (hpc : p.thread.pc = Pc.call s)
    (hret : (steps s).fnct p.thread.calls (p.thread.new_event.map Prod.snd) = some r)
    (hrun : p.running = FSM_STATE_RUNNING) (hmutex : p.mutex = false) :
    (engine_steps steps ev 2 p).thread.pc = Pc.enter r ∧
    (engine_steps steps ev 4 p).thread.pc = Pc.top ∧
    (engine_steps steps ev 4 p).current_step = some r ∧
    (engine_steps steps ev 4 p).thread.log = p.thread.log ++
      [Action.entry s (p.thread.new_event.map Prod.fst),
       Action.entry r (p.thread.new_event.map Prod.fst)] ∧
    (engine_steps steps ev 4 p).thread.new_event = p.thread.new_event ∧
    (engine_steps steps ev 4 p).thread.obtained = p.thread.obtained ∧
    (engine_steps steps ev 4 p).input_event = p.input_event ∧
    (∀ steps2 : Steps, (∀ a, (steps2 a).fnct = (steps a).fnct) →
      engine_steps steps2 ev 4 p = engine_steps steps ev 4 p) := by
  obtain ⟨⟨pc, ne, rs, ob, ca, lg⟩, mu, inbox, cur, rn, hist⟩ := p
  simp only at hpc hret hrun hmutex
  subst hpc hrun hmutex
  refine ⟨?_, ?_, ?_, ?_, ?_, ?_, ?_, ?_⟩
  all_goals try simp [engine_steps, engine_step, fsm_start_step_call, hret,
      fsm_start_step_section, pthread_mutex_lock, pthread_mutex_unlock, set_running,
      FSM_STATE_RUNNING, FSM_STATE_STARTING]
  intro steps2 h2
  simp [engine_steps, engine_step, fsm_start_step_call, hret, h2,
      fsm_start_step_section, pthread_mutex_lock, pthread_mutex_unlock, set_running,
      FSM_STATE_RUNNING, FSM_STATE_STARTING]

/-- C5, at a concrete input: step 0 returns step 1 from its callback; with "STOP"
queued in the inbox the engine still enters step 1 and leaves the inbox alone. -/
theorem C5_redirection_witness :
    (engine_steps exampleRedirectSteps exampleEvents 4
      (run exampleRedirectSteps exampleEvents
        [Tick.engine, Tick.engine, Tick.signal (fsm_generate_event "STOP" 0)]
        (fsm_start_pointer_spawn fsm_create_pointer 0))).current_step = some 1 ∧
    (engine_steps exampleRedirectSteps exampleEvents 4
      (run exampleRedirectSteps exampleEvents
        [Tick.engine, Tick.engine, Tick.signal (fsm_generate_event "STOP" 0)]
        (fsm_start_pointer_spawn fsm_create_pointer 0))).input_event =
      [fsm_generate_event "STOP" 0] :=
  ⟨(C5_redirection exampleRedirectSteps exampleEvents
      (run exampleRedirectSteps exampleEvents
        [Tick.engine, Tick.engine, Tick.signal (fsm_generate_event "STOP" 0)]
        (fsm_start_pointer_spawn fsm_create_pointer 0)) 0 1
      (by decide) (by decide) (by decide) (by decide)).2.2.1,
   (C5_redirection exampleRedirectSteps exampleEvents
      (run exampleRedirectSteps exampleEvents
        [Tick.engine, Tick.engine, Tick.signal (fsm_generate_event "STOP" 0)]
        (fsm_start_pointer_spawn fsm_create_pointer 0)) 0 1
      (by decide) (by decide) (by decide) (by decide)).2.2.2.2.2.2.1⟩

theorem engine_steps_done (steps : Steps) (ev : events_h) (n : Nat) (p : fsm_pointer)
    (h : p.thread.pc = Pc.done) : engine_steps steps ev n p = p := by
  induction n with
  | zero => rfl
  | succ k ih =>
    have h1 : engine_step steps ev p = p := by simp [engine_step, h]
    simp [engine_steps, h1, ih]

/-- C9: when the engine thread pops an event whose identifier is STOP, the thread
ends: no entry action is called, `current_step` is unchanged whatever transitions
the current step has, the event is released, and the events queued behind it stay
in the inbox however long the thread is scheduled afterwards. -/
theorem C9_stop_event (steps : Steps) (ev : events_h) (p : fsm_pointer) (e : fsm_event)
    (rest : List fsm_event) (hpc : p.thread.pc = Pc.wait_event)
    (hinbox : p.input_event = e :: rest) (hstop : e.uid = ev.EVENT_STOP_POINTER_UID) :
    (engine_step steps ev p).thread.pc = Pc.done ∧
    (engine_step steps ev p).thread.calls = p.thread.calls ∧
    (engine_step steps ev p).thread.log = p.thread.log ++
      [Action.obtain p.thread.obtained, Action.free p.thread.obtained] ∧
    (engine_step steps ev p).current_step = p.current_step ∧
    (engine_step steps ev p).running = p.running ∧
    (engine_step steps ev p).input_event = rest ∧
    (∀ n, engine_steps steps ev n (engine_step steps ev p) = engine_step steps ev p) := by
  obtain ⟨⟨pc, ne, rs, ob, ca, lg⟩, mu, inbox, cur, rn, hist⟩ := p
  simp only at hpc hinbox
  subst hpc hinbox
  have hpcd : (engine_step steps ev
      { thread := { pc := Pc.wait_event, new_event := ne, ret_step := rs, obtained := ob,
                    calls := ca, log := lg },
        mutex := mu, input_event := e :: rest, current_step := cur, running := rn,
        history := hist }).thread.pc = Pc.done := by
    simp [engine_step, _fsm_get_event_or_wait, _fsm_pop_front_event_queue,
      fsm_queue_pop_front, obtain_event, hstop]
  refine ⟨hpcd, ?_, ?_, ?_, ?_, ?_, fun n => engine_steps_done steps ev n _ hpcd⟩
  all_goals simp [engine_step, _fsm_get_event_or_wait, _fsm_pop_front_event_queue,
      fsm_queue_pop_front, obtain_event, hstop, free_new_event]

/-- C9, at a concrete input: step 0 has a transition labelled "STOP" to step 1; the
engine pops "STOP" with "GO" queued behind it and ends at step 0, "GO" still queued. -/
theorem C9_stop_event_witness :
    (engine_step (fsm_connect_step exampleSteps 0 1 "STOP") exampleEvents
      (run (fsm_connect_step exampleSteps 0 1 "STOP") exampleEvents
        [Tick.signal (fsm_generate_event "STOP" 0), Tick.signal (fsm_generate_event "GO" 0),
         Tick.engine]
        (exampleStarted (fsm_connect_step exampleSteps 0 1 "STOP")))).thread.pc = Pc.done ∧
    (engine_step (fsm_connect_step exampleSteps 0 1 "STOP") exampleEvents
      (run (fsm_connect_step exampleSteps 0 1 "STOP") exampleEvents
        [Tick.signal (fsm_generate_event "STOP" 0), Tick.signal (fsm_generate_event "GO" 0),
         Tick.engine]
        (exampleStarted (fsm_connect_step exampleSteps 0 1 "STOP")))).current_step = some 0 ∧
    (engine_step (fsm_connect_step exampleSteps 0 1 "STOP") exampleEvents
      (run (fsm_connect_step exampleSteps 0 1 "STOP") exampleEvents
        [Tick.signal (fsm_generate_event "STOP" 0), Tick.signal (fsm_generate_event "GO" 0),
         Tick.engine]
        (exampleStarted (fsm_connect_step exampleSteps 0 1 "STOP")))).input_event =
      [fsm_generate_event "GO" 0] :=
  ⟨(C9_stop_event (fsm_connect_step exampleSteps 0 1 "STOP") exampleEvents
      (run (fsm_connect_step exampleSteps 0 1 "STOP") exampleEvents
        [Tick.signal (fsm_generate_event "STOP" 0), Tick.signal (fsm_generate_event "GO" 0),
         Tick.engine]
        (exampleStarted (fsm_connect_step exampleSteps 0 1 "STOP")))
      (fsm_generate_event "STOP" 0) [fsm_generate_event "GO" 0]
      (by decide) (by decide) (by decide)).1,
   (C9_stop_event (fsm_connect_step exampleSteps 0 1 "STOP") exampleEvents
      (run (fsm_connect_step exampleSteps 0 1 "STOP") exampleEvents
        [Tick.signal (fsm_generate_event "STOP" 0), Tick.signal (fsm_generate_event "GO" 0),
         Tick.engine]
        (exampleStarted (fsm_connect_step exampleSteps 0 1 "STOP")))
      (fsm_generate_event "STOP" 0) [fsm_generate_event "GO" 0]
      (by decide) (by decide) (by decide)).2.2.2.1.trans (by decide),
   (C9_stop_event (fsm_connect_step exampleSteps 0 1 "STOP") exampleEvents
      (run (fsm_connect_step exampleSteps 0 1 "STOP") exampleEvents
        [Tick.signal (fsm_generate_event "STOP" 0), Tick.signal (fsm_generate_event "GO" 0),
         Tick.engine]
        (exampleStarted (fsm_connect_step exampleSteps 0 1 "STOP")))
      (fsm_generate_event "STOP" 0) [fsm_generate_event "GO" 0]
      (by decide) (by decide) (by decide)).2.2.2.2.2.1⟩

/-- C14, as stated, fails: in the direct loop step 0 --DIRECT--> step 1 --DIRECT-->
step 0 the engine is at the top of its loop in step 0, a DIRECT transition ahead,
when a joiner sets `running` to CLOSING; the engine's next step ends the thread
without entering step 1, the STOP event still in the inbox. -/
theorem C14_counterexample :
    (run exampleDirectSteps exampleEvents [Tick.join_request]
      (exampleStarted exampleDirectSteps)).thread.pc = Pc.top ∧
    (run exampleDirectSteps exampleEvents [Tick.join_request]
      (exampleStarted exampleDirectSteps)).running = FSM_STATE_CLOSING ∧
    (run exampleDirectSteps exampleEvents [Tick.join_request]
      (exampleStarted exampleDirectSteps)).current_step = some 0 ∧
    (exampleDirectSteps 0).transitions.head? =
      some { event_uid := "DIRECT", next_step := 1 } ∧
    (engine_step exampleDirectSteps exampleEvents
      (run exampleDirectSteps exampleEvents [Tick.join_request]
        (exampleStarted exampleDirectSteps))).thread.pc = Pc.done ∧
    (engine_step exampleDirectSteps exampleEvents
      (run exampleDirectSteps exampleEvents [Tick.join_request]
        (exampleStarted exampleDirectSteps))).thread.pc ≠ Pc.enter 1 ∧
    (engine_step exampleDirectSteps exampleEvents
      (run exampleDirectSteps exampleEvents [Tick.join_request]
        (exampleStarted exampleDirectSteps))).thread.calls =
      (exampleStarted exampleDirectSteps).thread.calls ∧
    (engine_step exampleDirectSteps exampleEvents
      (run exampleDirectSteps exampleEvents [Tick.join_request]
        (exampleStarted exampleDirectSteps))).input_event =
      [fsm_generate_event "STOP" 0] := by
  decide

/-- C14, amended. At the top of the loop `running` is read first: when it is not
RUNNING (so also when a joiner has set CLOSING) the thread releases the event it
holds and ends, entering no step and leaving `current_step` and the inbox as they
are, whatever redirection or DIRECT transition is pending. When it is RUNNING, a
pending redirection or DIRECT transition is followed without a look at the inbox,
so a STOP event queued there is not seen. -/
theorem C14_closing_seen_at_loop_top (steps : Steps) (ev : events_h) (p : fsm_pointer)
    (hpc : p.thread.pc = Pc.top) :
    (p.running ≠ FSM_STATE_RUNNING →
      (engine_step steps ev p).thread.pc = Pc.done ∧
      (engine_step steps ev p).thread.log = (free_new_event p.thread).log ∧
      (engine_step steps ev p).thread.calls = p.thread.calls ∧
      (engine_step steps ev p).current_step = p.current_step ∧
      (engine_step steps ev p).input_event = p.input_event) ∧
    (p.running = FSM_STATE_RUNNING →
      (∀ r, p.thread.ret_step = some r →
        (engine_step steps ev p).thread.pc = Pc.enter r ∧
        (engine_step steps ev p).input_event = p.input_event) ∧
      (∀ s first tail, p.thread.ret_step = none → p.current_step = some s →
        (steps s).transitions = first :: tail →
        first.event_uid = ev.EVENT_DIRECT_TRANSITION →
        (engine_step steps ev p).thread.pc = Pc.enter first.next_step ∧
        (engine_step steps ev p).input_event = p.input_event)) := by
  obtain ⟨⟨pc, ne, rs, ob, ca, lg⟩, mu, inbox, cur, rn, hist⟩ := p
  simp only at hpc
  subst hpc
  refine ⟨?_, ?_⟩
  · intro hrun
    simp only at hrun
    simp [engine_step, hrun]
  · intro hrun
    simp only at hrun
    subst hrun
    refine ⟨?_, ?_⟩
    · intro r hr
      simp only at hr
      subst hr
      simp [engine_step]
    · intro s first tail hr hc htrs hd
      simp only at hr hc
      subst hr hc
      simp [engine_step, htrs, hd]

/-- C14 amended, at a concrete input: the direct loop with CLOSING set ends at the
next loop top. -/
theorem C14_closing_seen_at_loop_top_witness :
    (engine_step exampleDirectSteps exampleEvents
      (run exampleDirectSteps exampleEvents [Tick.join_request]
        (exampleStarted exampleDirectSteps))).thread.pc = Pc.done ∧
    (engine_step exampleDirectSteps exampleEvents
      (run exampleDirectSteps exampleEvents [Tick.join_request]
        (exampleStarted exampleDirectSteps))).current_step = some 0 :=
  ⟨((C14_closing_seen_at_loop_top exampleDirectSteps exampleEvents
      (run exampleDirectSteps exampleEvents [Tick.join_request]
        (exampleStarted exampleDirectSteps)) (by decide)).1 (by decide)).1,
   ((C14_closing_seen_at_loop_top exampleDirectSteps exampleEvents
      (run exampleDirectSteps exampleEvents [Tick.join_request]
        (exampleStarted exampleDirectSteps)) (by decide)).1 (by decide)).2.2.2.1.trans
      (by decide)⟩

/-! ## Every event is released once -/

@[simp] theorem freed_append_free (l : List Action) (h : Nat) :
    freed (l ++ [Action.free h]) = freed l ++ [h] := by
  simp [freed, List.filterMap_append]

@[simp] theorem freed_append_obtain (l : List Action) (h : Nat) :
    freed (l ++ [Action.obtain h]) = freed l := by
  simp [freed, List.filterMap_append]

@[simp] theorem freed_append_entry (l : List Action) (s : Nat) (h : Option Nat) :
    freed (l ++ [Action.entry s h]) = freed l := by
  simp [freed, List.filterMap_append]

@[simp] theorem obtainedIn_append_free (l : List Action) (h : Nat) :
    obtainedIn (l ++ [Action.free h]) = obtainedIn l := by
  simp [obtainedIn, List.filterMap_append]

@[simp] theorem obtainedIn_append_obtain (l : List Action) (h : Nat) :
    obtainedIn (l ++ [Action.obtain h]) = obtainedIn l ++ [h] := by
  simp [obtainedIn, List.filterMap_append]

@[simp] theorem obtainedIn_append_entry (l : List Action) (s : Nat) (h : Option Nat) :
    obtainedIn (l ++ [Action.entry s h]) = obtainedIn l := by
  simp [obtainedIn, List.filterMap_append]

theorem freed_free_new_event (t : Thread) :
    freed (free_new_event t).log = freed t.log ++ (t.new_event.map Prod.fst).toList := by
  unfold free_new_event
  cases h : t.new_event with
  | none => simp
  | some x => simp

theorem obtainedIn_free_new_event (t : Thread) :
    obtainedIn (free_new_event t).log = obtainedIn t.log := by
  unfold free_new_event
  cases h : t.new_event with
  | none => simp
  | some x => simp

theorem eventsBalanced_engine_step (steps : Steps) (ev : events_h) (p : fsm_pointer)
    (h : EventsBalanced p.thread) : EventsBalanced (engine_step steps ev p).thread := by
  obtain ⟨⟨pc, ne, rs, ob, ca, lg⟩, mu, inbox, cur, rn, hist⟩ := p
  obtain ⟨hob, hfr⟩ := h
  simp only at hob hfr
  cases pc with
  | unspawned => exact ⟨hob, hfr⟩
  | done => exact ⟨hob, hfr⟩
  | fault => exact ⟨hob, hfr⟩
  | spawned =>
    simp only [holding, List.append_nil] at hfr
    cases cur <;>
      simp [engine_step, EventsBalanced, obtain_event, hob, hfr, List.range_succ, holding]
  | enter s =>
    cases mu
    · simp only [engine_step, fsm_start_step_section, pthread_mutex_lock,
        pthread_mutex_unlock]
      exact ⟨hob, hfr⟩
    · exact ⟨hob, hfr⟩
  | call s =>
    simp only [engine_step, fsm_start_step_call, EventsBalanced, obtainedIn_append_entry,
      freed_append_entry]
    exact ⟨hob, hfr⟩
  | top =>
    have hfree := And.intro
      (freed_free_new_event (Thread.mk Pc.top ne rs ob ca lg))
      (obtainedIn_free_new_event (Thread.mk Pc.top ne rs ob ca lg))
    simp only [holding] at hfr
    simp only [hfr, hob] at hfree
    by_cases hrun : rn = FSM_STATE_RUNNING
    · cases rs with
      | some r =>
        simp only [engine_step, hrun, ne_eq, not_true_eq_false, if_false]
        exact ⟨hob, hfr⟩
      | none =>
        cases cur with
        | none =>
          simp only [engine_step, hrun, ne_eq, not_true_eq_false, if_false]
          exact ⟨hob, hfr⟩
        | some c =>
          cases htrs : (steps c).transitions with
          | nil =>
            simp only [engine_step, hrun, ne_eq, not_true_eq_false, if_false, htrs]
            exact ⟨by simpa using hfree.2, by simpa [holding] using hfree.1⟩
          | cons first tail =>
            by_cases hd : first.event_uid = ev.EVENT_DIRECT_TRANSITION
            · simp only [engine_step, hrun, ne_eq, not_true_eq_false, if_false, htrs, hd,
                if_true]
              exact ⟨hob, hfr⟩
            · simp only [engine_step, hrun, ne_eq, not_true_eq_false, if_false, htrs, hd]
              exact ⟨by simpa using hfree.2, by simpa [holding] using hfree.1⟩
    · simp only [engine_step, hrun, ne_eq, not_false_eq_true, if_true]
      exact ⟨by simpa using hfree.2, by simpa [holding] using hfree.1⟩
  | wait_event =>
    simp only [holding, List.append_nil] at hfr
    cases inbox with
    | nil => simpa [engine_step, _fsm_get_event_or_wait, EventsBalanced, holding] using
        And.intro hob hfr
    | cons e rest =>
      by_cases hstop : e.uid = ev.EVENT_STOP_POINTER_UID
      · have hsplit : lg ++ [Action.obtain ob, Action.free ob] =
            (lg ++ [Action.obtain ob]) ++ [Action.free ob] := by simp
        simp [engine_step, _fsm_get_event_or_wait, _fsm_pop_front_event_queue,
          fsm_queue_pop_front, hstop, EventsBalanced, holding, obtain_event, free_new_event,
          List.range_succ]
        rw [hsplit, obtainedIn_append_free, freed_append_free, obtainedIn_append_obtain,
          freed_append_obtain, hob, hfr]
        exact ⟨rfl, rfl⟩
      · cases cur with
        | none =>
          simp [engine_step, _fsm_get_event_or_wait, _fsm_pop_front_event_queue,
            fsm_queue_pop_front, hstop, EventsBalanced, holding, obtain_event,
            hob, hfr, List.range_succ]
        | some c =>
          cases hl : _fsm_get_reachable_condition (steps c).transitions e <;>
            simp [engine_step, _fsm_get_event_or_wait, _fsm_pop_front_event_queue,
              fsm_queue_pop_front, hstop, EventsBalanced, holding, obtain_event,
              hob, hfr, List.range_succ, hl]

theorem eventsBalanced_tick (steps : Steps) (ev : events_h) (p : fsm_pointer) (k : Tick)
    (h : EventsBalanced p.thread) : EventsBalanced (tick steps ev p k).thread := by
  cases k with
  | engine => exact eventsBalanced_engine_step steps ev p h
  | signal e => exact h
  | join_request =>
    simp only [tick, pthread_mutex_lock]
    cases hm : p.mutex
    · simp only [Bool.false_eq_true, if_false]
      split <;> exact h
    · exact h

theorem eventsBalanced_run (steps : Steps) (ev : events_h) (sched : List Tick)
    (p : fsm_pointer) (h : EventsBalanced p.thread) :
    EventsBalanced (run steps ev sched p).thread := by
  induction sched generalizing p with
  | nil => exact h
  | cons k rest ih => exact ih _ (eventsBalanced_tick steps ev p k h)

/-- C8: a pointer is created and started at any step; the engine thread then runs
under any schedule, with any events signalled at any moments, a joiner that may set
CLOSING at any moment, and any entry actions. At every moment no event is released
twice and only obtained events are released; once the loop has exited, the events
released are exactly the events obtained (the START event and every popped event),
each once, and none is held. -/
theorem C8_events_released_once (steps : Steps) (ev : events_h) (sched : List Tick)
    (init_step : Nat) :
    (freed (run steps ev sched
      (fsm_start_pointer_spawn fsm_create_pointer init_step)).thread.log).Nodup ∧
    (∀ h ∈ freed (run steps ev sched
        (fsm_start_pointer_spawn fsm_create_pointer init_step)).thread.log,
      h ∈ obtainedIn (run steps ev sched
        (fsm_start_pointer_spawn fsm_create_pointer init_step)).thread.log) ∧
    (obtainedIn (run steps ev sched
      (fsm_start_pointer_spawn fsm_create_pointer init_step)).thread.log).Nodup ∧
    ((run steps ev sched
        (fsm_start_pointer_spawn fsm_create_pointer init_step)).thread.pc = Pc.done →
      freed (run steps ev sched
          (fsm_start_pointer_spawn fsm_create_pointer init_step)).thread.log =
        obtainedIn (run steps ev sched
          (fsm_start_pointer_spawn fsm_create_pointer init_step)).thread.log ∧
      holding (run steps ev sched
          (fsm_start_pointer_spawn fsm_create_pointer init_step)).thread = []) := by
  have h0 : EventsBalanced (fsm_start_pointer_spawn fsm_create_pointer init_step).thread := by
    simp [EventsBalanced, fsm_start_pointer_spawn, pthread_create, set_running,
      fsm_create_pointer, obtainedIn, freed, holding]
  obtain ⟨hob, hfr⟩ := eventsBalanced_run steps ev sched _ h0
  generalize (run steps ev sched
    (fsm_start_pointer_spawn fsm_create_pointer init_step)).thread = t at hob hfr
  have hnd : (freed t.log ++ holding t).Nodup := hfr ▸ List.nodup_range _
  refine ⟨(List.nodup_append.mp hnd).1, ?_, hob ▸ List.nodup_range _, ?_⟩
  · intro h hh
    rw [hob, ← hfr]
    exact List.mem_append_left _ hh
  · intro hpc
    have hh : holding t = [] := by simp [holding, hpc]
    rw [hh, List.append_nil] at hfr
    exact ⟨hfr.trans hob.symm, hh⟩

/-- C8, at a concrete input: the pointer is started at step 0, "NOPE" and "GO" are
signalled and a joiner asks for the stop; the loop exits having released the four
events it obtained (START, "NOPE", "GO", STOP), each once. -/
theorem C8_events_released_once_witness :
    (run exampleSteps exampleEvents
      [Tick.engine, Tick.engine, Tick.engine, Tick.signal (fsm_generate_event "NOPE" 0),
       Tick.signal (fsm_generate_event "GO" 0), Tick.engine, Tick.engine, Tick.engine,
       Tick.engine, Tick.engine, Tick.engine, Tick.engine, Tick.join_request, Tick.engine]
      (fsm_start_pointer_spawn fsm_create_pointer 0)).thread.pc = Pc.done ∧
    freed (run exampleSteps exampleEvents
      [Tick.engine, Tick.engine, Tick.engine, Tick.signal (fsm_generate_event "NOPE" 0),
       Tick.signal (fsm_generate_event "GO" 0), Tick.engine, Tick.engine, Tick.engine,
       Tick.engine, Tick.engine, Tick.engine, Tick.engine, Tick.join_request, Tick.engine]
      (fsm_start_pointer_spawn fsm_create_pointer 0)).thread.log = [0, 1, 2, 3] ∧
    freed (run exampleSteps exampleEvents
      [Tick.engine, Tick.engine, Tick.engine, Tick.signal (fsm_generate_event "NOPE" 0),
       Tick.signal (fsm_generate_event "GO" 0), Tick.engine, Tick.engine, Tick.engine,
       Tick.engine, Tick.engine, Tick.engine, Tick.engine, Tick.join_request, Tick.engine]
      (fsm_start_pointer_spawn fsm_create_pointer 0)).thread.log =
    obtainedIn (run exampleSteps exampleEvents
      [Tick.engine, Tick.engine, Tick.engine, Tick.signal (fsm_generate_event "NOPE" 0),
       Tick.signal (fsm_generate_event "GO" 0), Tick.engine, Tick.engine, Tick.engine,
       Tick.engine, Tick.engine, Tick.engine, Tick.engine, Tick.join_request, Tick.engine]
      (fsm_start_pointer_spawn fsm_create_pointer 0)).thread.log :=
  ⟨by decide, by decide,
   ((C8_events_released_once exampleSteps exampleEvents
      [Tick.engine, Tick.engine, Tick.engine, Tick.signal (fsm_generate_event "NOPE" 0),
       Tick.signal (fsm_generate_event "GO" 0), Tick.engine, Tick.engine, Tick.engine,
       Tick.engine, Tick.engine, Tick.engine, Tick.engine, Tick.join_request, Tick.engine]
      0).2.2.2 (by decide)).1⟩

/-! ## Run state -/

theorem writes_of_eq (p q : fsm_pointer) (hh : q.history = p.history)
    (hr : q.running = p.running) : Writes p q :=
  ⟨[], by simp [hh], by simp, by simp [hr]⟩

theorem writes_refl (p : fsm_pointer) : Writes p p := writes_of_eq p p rfl rfl

theorem writes_set_running (p : fsm_pointer) (v : Nat)
    (h : lifecycle_edge p.running v = true) : Writes p (set_running p v) :=
  ⟨[v], by simp [set_running], by simp [h], by simp [set_running]⟩

theorem writes_trans (p q r : fsm_pointer) (h1 : Writes p q) (h2 : Writes q r) :
    Writes p r := by
  obtain ⟨a1, hh1, hc1, hl1⟩ := h1
  obtain ⟨a2, hh2, hc2, hl2⟩ := h2
  refine ⟨a1 ++ a2, by rw [hh2, hh1, List.append_assoc], ?_, ?_⟩
  · rw [← List.cons_append, List.chain'_append]
    refine ⟨hc1, (List.chain'_cons'.mp hc2).2, ?_⟩
    intro x hx y hy
    rw [hl1] at hx
    cases hx
    exact (List.chain'_cons'.mp hc2).1 y hy
  · cases a2 with
    | nil => simpa using hl1.trans (by simpa using hl2)
    | cons b bs =>
      rw [← List.cons_append, List.getLast?_append_cons]
      simpa [List.getLast?_cons_cons] using hl2

theorem writes_start_step_section (p q : fsm_pointer) (s : Nat)
    (h : fsm_start_step_section p s = some q) : Writes p q := by
  unfold fsm_start_step_section pthread_mutex_lock at h
  cases hm : p.mutex
  · simp only [hm, Bool.false_eq_true, if_false, Option.some.injEq] at h
    subst h
    by_cases hr : p.running = FSM_STATE_STARTING
    · simp only [hr, if_true]
      exact writes_trans _ _ _
        (writes_set_running { p with mutex := true, current_step := some s }
          FSM_STATE_RUNNING (by simp [hr, lifecycle_edge]))
        (writes_of_eq _ _ rfl rfl)
    · simp only [hr, if_false]
      exact writes_of_eq _ _ rfl rfl
  · simp [hm] at h

theorem engine_step_history (steps : Steps) (ev : events_h) (p : fsm_pointer)
    (h : ∀ s, p.thread.pc ≠ Pc.enter s) :
    (engine_step steps ev p).history = p.history ∧
    (engine_step steps ev p).running = p.running ∧
    (engine_step steps ev p).mutex = p.mutex ∧
    (engine_step steps ev p).current_step = p.current_step := by
  obtain ⟨⟨pc, ne, rs, ob, ca, lg⟩, mu, inbox, cur, rn, hist⟩ := p
  cases pc with
  | enter s => exact absurd rfl (h s)
  | unspawned => exact ⟨rfl, rfl, rfl, rfl⟩
  | done => exact ⟨rfl, rfl, rfl, rfl⟩
  | fault => exact ⟨rfl, rfl, rfl, rfl⟩
  | call s => exact ⟨rfl, rfl, rfl, rfl⟩
  | spawned => cases cur <;> exact ⟨rfl, rfl, rfl, rfl⟩
  | top =>
    simp only [engine_step]
    repeat' split
    all_goals exact ⟨rfl, rfl, rfl, rfl⟩
  | wait_event =>
    simp only [engine_step]
    repeat' split
    all_goals exact ⟨rfl, rfl, rfl, rfl⟩

theorem writes_engine_step (steps : Steps) (ev : events_h) (p : fsm_pointer) :
    Writes p (engine_step steps ev p) := by
  by_cases h : ∃ s, p.thread.pc = Pc.enter s
  · obtain ⟨s, hs⟩ := h
    cases hsec : fsm_start_step_section p s with
    | none =>
      have : engine_step steps ev p = p := by simp [engine_step, hs, hsec]
      rw [this]
      exact writes_refl p
    | some q =>
      have : engine_step steps ev p = { q with thread := { p.thread with pc := Pc.call s } } := by
        simp [engine_step, hs, hsec]
      rw [this]
      exact writes_trans _ _ _ (writes_start_step_section p q s hsec)
        (writes_of_eq _ _ rfl rfl)
  · have h2 := engine_step_history steps ev p (fun s hs => h ⟨s, hs⟩)
    exact writes_of_eq _ _ h2.1 h2.2.1

theorem writes_join_pointer_close (ev : events_h) (p : fsm_pointer)
    (h : p.running = FSM_STATE_RUNNING) : Writes p (fsm_join_pointer_close ev p) := by
  unfold fsm_join_pointer_close
  exact writes_trans _ _ _
    (writes_trans _ _ _
      (writes_of_eq p (fsm_signal_pointer_of_event p
        (fsm_generate_event ev.EVENT_STOP_POINTER_UID 0)) rfl rfl)
      (writes_set_running _ FSM_STATE_CLOSING
        (by simp [fsm_signal_pointer_of_event, h, lifecycle_edge])))
    (writes_of_eq _ _ rfl rfl)

theorem writes_tick (steps : Steps) (ev : events_h) (p : fsm_pointer) (k : Tick) :
    Writes p (tick steps ev p k) := by
  cases k with
  | engine => exact writes_engine_step steps ev p
  | signal e => exact writes_of_eq _ _ rfl rfl
  | join_request =>
    unfold tick pthread_mutex_lock
    cases hm : p.mutex
    · simp only [Bool.false_eq_true, if_false]
      split
      · rename_i hr
        exact writes_trans _ _ _ (writes_of_eq p { p with mutex := true } rfl rfl)
          (writes_join_pointer_close ev _ hr)
      · exact writes_of_eq _ _ rfl rfl
    · exact writes_refl p

theorem writes_run (steps : Steps) (ev : events_h) (sched : List Tick) (p : fsm_pointer) :
    Writes p (run steps ev sched p) := by
  induction sched generalizing p with
  | nil => exact writes_refl p
  | cons k rest ih => exact writes_trans _ _ _ (writes_tick steps ev p k) (ih _)

theorem writes_cond_wait (steps : Steps) (ev : events_h) (wake : List Tick)
    (p : fsm_pointer) : Writes p (pthread_cond_wait steps ev wake p) := by
  unfold pthread_cond_wait
  exact writes_trans _ _ _
    (writes_trans _ _ _ (writes_of_eq p (pthread_mutex_unlock p) rfl rfl)
      (writes_run steps ev wake _))
    (writes_of_eq _ _ rfl rfl)

theorem writes_start_pointer_wait (steps : Steps) (ev : events_h) (wakes : List (List Tick))
    (p q : fsm_pointer) (h : fsm_start_pointer_wait steps ev wakes p = some q) :
    Writes p q ∧ q.running ≠ FSM_STATE_STARTING := by
  induction wakes generalizing p with
  | nil =>
    unfold fsm_start_pointer_wait at h
    split at h
    · cases h
    · rename_i hr
      cases h
      exact ⟨writes_refl _, hr⟩
  | cons w ws ih =>
    unfold fsm_start_pointer_wait at h
    split at h
    · obtain ⟨h1, h2⟩ := ih _ h
      exact ⟨writes_trans _ _ _ (writes_cond_wait steps ev w p) h1, h2⟩
    · rename_i hr
      cases h
      exact ⟨writes_refl _, hr⟩

theorem writes_start_pointer (steps : Steps) (ev : events_h) (wakes : List (List Tick))
    (p q : fsm_pointer) (init_step r : Nat)
    (h : fsm_start_pointer steps ev wakes p init_step = some (r, q)) : Writes p q := by
  unfold fsm_start_pointer pthread_mutex_lock at h
  cases hm : p.mutex
  · simp only [hm, Bool.false_eq_true, if_false] at h
    split at h
    · cases h
      exact writes_of_eq _ _ rfl rfl
    · rename_i hr
      simp only [ne_eq, not_not] at hr
      split at h
      · cases h
      · rename_i p2 hw
        cases h
        refine writes_trans _ _ _ ?_
          (writes_trans _ _ _ (writes_start_pointer_wait steps ev wakes _ _ hw).1
            (writes_of_eq _ _ rfl rfl))
        unfold fsm_start_pointer_spawn pthread_create
        exact writes_trans _ _ _
          (writes_trans _ _ _
            (writes_of_eq p { p with mutex := true, current_step := some init_step } rfl rfl)
            (writes_set_running _ FSM_STATE_STARTING (by
              simp [hr, lifecycle_edge])))
          (writes_of_eq _ _ rfl rfl)
  · simp [hm] at h

theorem tick_running_of_closing (steps : Steps) (ev : events_h) (p : fsm_pointer)
    (k : Tick) (h : p.running = FSM_STATE_CLOSING) :
    (tick steps ev p k).running = FSM_STATE_CLOSING := by
  cases k with
  | engine =>
    by_cases hs : ∃ s, p.thread.pc = Pc.enter s
    · obtain ⟨s, hs⟩ := hs
      cases hm : p.mutex <;>
        simp [tick, engine_step, hs, fsm_start_step_section, pthread_mutex_lock, hm, h,
          pthread_mutex_unlock, FSM_STATE_CLOSING, FSM_STATE_STARTING]
    · exact ((engine_step_history steps ev p (fun s hs2 => hs ⟨s, hs2⟩)).2.1).trans h
  | signal e => exact h
  | join_request =>
    cases hm : p.mutex <;>
      simp [tick, pthread_mutex_lock, hm, h, pthread_mutex_unlock, FSM_STATE_CLOSING,
        FSM_STATE_RUNNING]

theorem run_running_of_closing (steps : Steps) (ev : events_h) (sched : List Tick)
    (p : fsm_pointer) (h : p.running = FSM_STATE_CLOSING) :
    (run steps ev sched p).running = FSM_STATE_CLOSING := by
  induction sched generalizing p with
  | nil => exact h
  | cons k rest ih => exact ih _ (tick_running_of_closing steps ev p k h)

theorem join_pointer_running (steps : Steps) (ev : events_h) (sched : List Tick)
    (p : fsm_pointer) (hm : p.mutex = false) (hr : p.running = FSM_STATE_RUNNING) :
    fsm_join_pointer steps ev sched p =
      if (run steps ev sched (fsm_join_pointer_close ev { p with mutex := true })).thread.pc
            = Pc.done ∧
          (run steps ev sched (fsm_join_pointer_close ev { p with mutex := true })).mutex
            = false then
        some (pthread_mutex_unlock
          { set_running
              { run steps ev sched (fsm_join_pointer_close ev { p with mutex := true }) with
                mutex := true } FSM_STATE_STOPPED with
            input_event := [] })
      else none := by
  obtain ⟨t, mu, inbox, cur, rn, hist⟩ := p
  simp only at hm hr
  subst hm hr
  simp only [fsm_join_pointer, pthread_join, pthread_mutex_lock, Bool.false_eq_true,
    if_false, if_true]
  split_ifs with h1 h2 h3 <;> simp_all [fsm_queue_cleanup, set_running,
    pthread_mutex_unlock]

theorem join_pointer_not_running (steps : Steps) (ev : events_h) (sched : List Tick)
    (p : fsm_pointer) (hm : p.mutex = false) (hr : p.running ≠ FSM_STATE_RUNNING) :
    fsm_join_pointer steps ev sched p = some { p with input_event := [] } := by
  obtain ⟨t, mu, inbox, cur, rn, hist⟩ := p
  simp only at hm hr
  subst hm
  simp [fsm_join_pointer, pthread_mutex_lock, hr, fsm_queue_cleanup, pthread_mutex_unlock]

theorem join_pointer_locked (steps : Steps) (ev : events_h) (sched : List Tick)
    (p : fsm_pointer) (hm : p.mutex = true) : fsm_join_pointer steps ev sched p = none := by
  simp [fsm_join_pointer, pthread_mutex_lock, hm]

theorem writes_join_pointer (steps : Steps) (ev : events_h) (sched : List Tick)
    (p q : fsm_pointer) (h : fsm_join_pointer steps ev sched p = some q) : Writes p q := by
  cases hm : p.mutex
  · by_cases hr : p.running = FSM_STATE_RUNNING
    · rw [join_pointer_running steps ev sched p hm hr] at h
      split at h
      · cases h
        have hclose : (fsm_join_pointer_close ev { p with mutex := true }).running =
            FSM_STATE_CLOSING := rfl
        have hrun := run_running_of_closing steps ev sched _ hclose
        exact writes_trans _ _ _
          (writes_trans _ _ _
            (writes_trans _ _ _ (writes_of_eq p { p with mutex := true } rfl rfl)
              (writes_join_pointer_close ev _ hr))
            (writes_run steps ev sched _))
          (writes_trans _ _ _
            (writes_trans _ _ _
              (writes_of_eq _ { run steps ev sched
                (fsm_join_pointer_close ev { p with mutex := true }) with
                mutex := true } rfl rfl)
              (writes_set_running _ FSM_STATE_STOPPED (by
                simp only [hrun]
                rfl)))
            (writes_of_eq _ _ rfl rfl))
      · cases h
    · rw [join_pointer_not_running steps ev sched p hm hr] at h
      cases h
      exact writes_of_eq _ _ rfl rfl
  · rw [join_pointer_locked steps ev sched p hm] at h
    cases h

/-- C7: a pointer is created with `running` STOPPED, and every assignment to
`running` made by step entry, by the engine loop, by `fsm_start_pointer` and by
`fsm_join_pointer` follows one of the edges STOPPED → STARTING, STARTING → RUNNING,
RUNNING → CLOSING, CLOSING → STOPPED: the values each of them assigns, in order,
form a path of such edges from the value `running` had before. -/
theorem C7_run_state_lifecycle (steps : Steps) (ev : events_h) (p : fsm_pointer) :
    fsm_create_pointer.running = FSM_STATE_STOPPED ∧
    fsm_create_pointer.history = [FSM_STATE_STOPPED] ∧
    (∀ s q, fsm_start_step_section p s = some q → Writes p q) ∧
    Writes p (engine_step steps ev p) ∧
    (∀ wakes init_step r q,
      fsm_start_pointer steps ev wakes p init_step = some (r, q) → Writes p q) ∧
    (∀ sched q, fsm_join_pointer steps ev sched p = some q → Writes p q) :=
  ⟨rfl, rfl, fun s q h => writes_start_step_section p q s h, writes_engine_step steps ev p,
   fun wakes init_step r q h => writes_start_pointer steps ev wakes p q init_step r h,
   fun sched q h => writes_join_pointer steps ev sched p q h⟩

/-- C7, at a concrete input: a pointer is created, started at step 0 and joined;
`running` went through STOPPED, STARTING, RUNNING, CLOSING, STOPPED. -/
theorem C7_run_state_lifecycle_witness :
    fsm_start_pointer exampleSteps exampleEvents [[Tick.engine, Tick.engine]]
      fsm_create_pointer 0 = some (0, run exampleSteps exampleEvents
        [Tick.engine, Tick.engine] (fsm_start_pointer_spawn fsm_create_pointer 0)) ∧
    Writes fsm_create_pointer (run exampleSteps exampleEvents
        [Tick.engine, Tick.engine] (fsm_start_pointer_spawn fsm_create_pointer 0)) ∧
    ((fsm_join_pointer exampleSteps exampleEvents [Tick.engine, Tick.engine]
      (run exampleSteps exampleEvents [Tick.engine, Tick.engine]
        (fsm_start_pointer_spawn fsm_create_pointer 0))).map fun q => q.history) =
      some [FSM_STATE_STOPPED, FSM_STATE_STARTING, FSM_STATE_RUNNING, FSM_STATE_CLOSING,
        FSM_STATE_STOPPED] :=
  ⟨by decide,
   (C7_run_state_lifecycle exampleSteps exampleEvents fsm_create_pointer).2.2.2.2.1
     [[Tick.engine, Tick.engine]] 0 0 _ (by decide),
   by decide⟩

/-! ## `fsm_start_pointer` -/

theorem start_pointer_not_stopped (steps : Steps) (ev : events_h) (wakes : List (List Tick))
    (p : fsm_pointer) (init_step : Nat) (hm : p.mutex = false)
    (hr : p.running ≠ FSM_STATE_STOPPED) :
    fsm_start_pointer steps ev wakes p init_step =
      some (FSM_ERR_NOT_STOPPED, { p with mutex := true }) := by
  simp [fsm_start_pointer, pthread_mutex_lock, hm, hr]

theorem start_pointer_stopped (steps : Steps) (ev : events_h) (wakes : List (List Tick))
    (p : fsm_pointer) (init_step : Nat) (hm : p.mutex = false)
    (hr : p.running = FSM_STATE_STOPPED) :
    fsm_start_pointer steps ev wakes p init_step =
      (fsm_start_pointer_wait steps ev wakes
        (fsm_start_pointer_spawn { p with mutex := true } init_step)).map
        fun q => (0, pthread_mutex_unlock q) := by
  obtain ⟨t, mu, inbox, cur, rn, hist⟩ := p
  simp only at hm hr
  subst hm hr
  simp only [fsm_start_pointer, pthread_mutex_lock, Bool.false_eq_true, if_false,
    ne_eq, not_true_eq_false]
  split <;> simp_all

/-- C3: with the mutex free, `fsm_start_pointer` returns `FSM_ERR_NOT_STOPPED`,
which is not 0, exactly when `running` is not STOPPED at the call, and then leaves
`current_step` and `running` as they were. When `running` is STOPPED the engine
thread is created with `current_step` the initial step and `running` STARTING; the
call returns 0, and only once `running` is no longer STARTING; it does return as
soon as the engine thread has gone through the step entry of the initial step. -/
theorem C3_start_pointer (steps : Steps) (ev : events_h) (wakes : List (List Tick))
    (p : fsm_pointer) (init_step : Nat) (hm : p.mutex = false) :
    (p.running ≠ FSM_STATE_STOPPED →
      ∃ q, fsm_start_pointer steps ev wakes p init_step = some (FSM_ERR_NOT_STOPPED, q) ∧
        q.current_step = p.current_step ∧ q.running = p.running ∧
        q.history = p.history ∧ q.thread = p.thread) ∧
    (∀ r q, fsm_start_pointer steps ev wakes p init_step = some (r, q) →
      (r = FSM_ERR_NOT_STOPPED ↔ p.running ≠ FSM_STATE_STOPPED)) ∧
    FSM_ERR_NOT_STOPPED ≠ 0 ∧
    (p.running = FSM_STATE_STOPPED →
      (fsm_start_pointer_spawn { p with mutex := true } init_step).current_step =
        some init_step ∧
      (fsm_start_pointer_spawn { p with mutex := true } init_step).running =
        FSM_STATE_STARTING ∧
      (fsm_start_pointer_spawn { p with mutex := true } init_step).thread.pc = Pc.spawned ∧
      fsm_start_pointer steps ev wakes p init_step =
        (fsm_start_pointer_wait steps ev wakes
          (fsm_start_pointer_spawn { p with mutex := true } init_step)).map
          (fun q => (0, pthread_mutex_unlock q)) ∧
      (∀ r q, fsm_start_pointer steps ev wakes p init_step = some (r, q) →
        r = 0 ∧ q.running ≠ FSM_STATE_STARTING) ∧
      (∀ rest, ∃ q,
        fsm_start_pointer steps ev ([Tick.engine, Tick.engine] :: rest) p init_step =
          some (0, q) ∧
        q.running = FSM_STATE_RUNNING ∧ q.current_step = some init_step)) := by
  refine ⟨?_, ?_, by decide, ?_⟩
  · intro hr
    exact ⟨_, start_pointer_not_stopped steps ev wakes p init_step hm hr, rfl, rfl, rfl, rfl⟩
  · intro r q h
    by_cases hr : p.running = FSM_STATE_STOPPED
    · rw [start_pointer_stopped steps ev wakes p init_step hm hr] at h
      cases hw : fsm_start_pointer_wait steps ev wakes
          (fsm_start_pointer_spawn { p with mutex := true } init_step) with
      | none => simp [hw] at h
      | some q2 =>
        simp only [hw, Option.map_some', Option.some.injEq, Prod.mk.injEq] at h
        simp [← h.1, hr, FSM_ERR_NOT_STOPPED]
    · rw [start_pointer_not_stopped steps ev wakes p init_step hm hr] at h
      simp only [Option.some.injEq, Prod.mk.injEq] at h
      simp [← h.1, hr]
  · intro hr
    refine ⟨rfl, rfl, rfl, start_pointer_stopped steps ev wakes p init_step hm hr, ?_, ?_⟩
    · intro r q h
      rw [start_pointer_stopped steps ev wakes p init_step hm hr] at h
      cases hw : fsm_start_pointer_wait steps ev wakes
          (fsm_start_pointer_spawn { p with mutex := true } init_step) with
      | none => simp [hw] at h
      | some q2 =>
        simp only [hw, Option.map_some', Option.some.injEq, Prod.mk.injEq] at h
        refine ⟨h.1.symm, ?_⟩
        rw [← h.2]
        exact (writes_start_pointer_wait steps ev wakes _ _ hw).2
    · intro rest
      rw [start_pointer_stopped steps ev ([Tick.engine, Tick.engine] :: rest) p init_step
        hm hr]
      obtain ⟨t, mu, inbox, cur, rn, hist⟩ := p
      cases rest <;>
        simp [fsm_start_pointer_wait, fsm_start_pointer_spawn, pthread_create, set_running,
          pthread_cond_wait, run, tick, engine_step, pthread_mutex_unlock, obtain_event,
          fsm_start_step_section, pthread_mutex_lock, FSM_STATE_STARTING, FSM_STATE_RUNNING]

/-- C3, at a concrete input: a fresh pointer is started and the call returns 0 with
`running` RUNNING; starting it again returns `FSM_ERR_NOT_STOPPED` and changes
neither `current_step` nor `running`. -/
theorem C3_start_pointer_witness :
    (∃ q, fsm_start_pointer exampleSteps exampleEvents [[Tick.engine, Tick.engine]]
        fsm_create_pointer 0 = some (0, q) ∧
      q.running = FSM_STATE_RUNNING ∧ q.current_step = some 0) ∧
    (∃ q, fsm_start_pointer exampleSteps exampleEvents [] (exampleStarted exampleSteps) 1 =
        some (FSM_ERR_NOT_STOPPED, q) ∧
      q.current_step = (exampleStarted exampleSteps).current_step ∧
      q.running = (exampleStarted exampleSteps).running ∧
      q.history = (exampleStarted exampleSteps).history ∧
      q.thread = (exampleStarted exampleSteps).thread) :=
  ⟨(C3_start_pointer exampleSteps exampleEvents [] fsm_create_pointer 0 (by decide)).2.2.2
      (by decide) |>.2.2.2.2.2 [],
   (C3_start_pointer exampleSteps exampleEvents [] (exampleStarted exampleSteps) 1
      (by decide)).1 (by decide)⟩

/-! ## `fsm_join_pointer` -/

/-- C6, as stated, fails: a pointer that was never started (`running` STOPPED) has
one event signalled to it; `fsm_join_pointer` returns with the inbox emptied. -/
theorem C6_counterexample :
    (fsm_signal_pointer_of_event fsm_create_pointer (fsm_generate_event "GO" 0)).running =
      FSM_STATE_STOPPED ∧
    (fsm_signal_pointer_of_event fsm_create_pointer (fsm_generate_event "GO" 0)).input_event =
      [fsm_generate_event "GO" 0] ∧
    ((fsm_join_pointer exampleSteps exampleEvents []
      (fsm_signal_pointer_of_event fsm_create_pointer (fsm_generate_event "GO" 0))).map
        fun q => q.input_event) = some [] ∧
    ((fsm_join_pointer exampleSteps exampleEvents []
      (fsm_signal_pointer_of_event fsm_create_pointer (fsm_generate_event "GO" 0))).map
        fun q => q.input_event) ≠
      some (fsm_signal_pointer_of_event fsm_create_pointer
        (fsm_generate_event "GO" 0)).input_event := by
  decide

/-- C6, amended: on a pointer whose `running` is STOPPED (and whose mutex is free)
`fsm_join_pointer` returns at once, leaves `running`, `current_step` and the engine
thread as they are and empties the inbox; a second call returns the same pointer as
the first. -/
theorem C6_join_stopped (steps : Steps) (ev : events_h) (sched sched2 : List Tick)
    (p : fsm_pointer) (hm : p.mutex = false) (hr : p.running = FSM_STATE_STOPPED) :
    fsm_join_pointer steps ev sched p = some { p with input_event := [] } ∧
    fsm_join_pointer steps ev sched2 { p with input_event := [] } =
      some { p with input_event := [] } :=
  ⟨join_pointer_not_running steps ev sched p hm (by simp [hr, FSM_STATE_STOPPED,
      FSM_STATE_RUNNING]),
   join_pointer_not_running steps ev sched2 { p with input_event := [] } hm
     (by simp [hr, FSM_STATE_STOPPED, FSM_STATE_RUNNING])⟩

/-- C6 amended, at a concrete input: the pointer of the counterexample, joined
twice. -/
theorem C6_join_stopped_witness :
    fsm_join_pointer exampleSteps exampleEvents []
      (fsm_signal_pointer_of_event fsm_create_pointer (fsm_generate_event "GO" 0)) =
      some fsm_create_pointer ∧
    fsm_join_pointer exampleSteps exampleEvents [] fsm_create_pointer =
      some fsm_create_pointer :=
  C6_join_stopped exampleSteps exampleEvents [] []
    (fsm_signal_pointer_of_event fsm_create_pointer (fsm_generate_event "GO" 0))
    (by decide) (by decide)

/-! ## Waits -/

theorem wait_blocking_loop_zero (steps : Steps) (ev : events_h) (step : Option Nat)
    (leave : Nat) (wakes : List (List Tick)) (p : fsm_pointer) :
    (∃ q, _fsm_wait_step_blocking_loop steps ev step leave wakes p = some (0, q)) ↔
      wait_condition p step leave = false := by
  cases wakes with
  | nil =>
    unfold _fsm_wait_step_blocking_loop
    cases hc : wait_condition p step leave <;> simp
  | cons w ws =>
    unfold _fsm_wait_step_blocking_loop
    cases hc : wait_condition p step leave
    · simp
    · simp only [if_true, Bool.true_eq_false, iff_false, not_exists]
      intro q
      cases _fsm_wait_step_blocking_loop steps ev step leave ws
        (pthread_cond_wait steps ev w p) with
      | none => simp
      | some r => simp

theorem wait_blocking_loop_result (steps : Steps) (ev : events_h) (step : Option Nat)
    (leave : Nat) (wakes : List (List Tick)) (p q : fsm_pointer) (n : Nat)
    (h : _fsm_wait_step_blocking_loop steps ev step leave wakes p = some (n, q)) :
    wait_condition q step leave = false ∧
    (wait_condition p step leave = true → 0 < n) := by
  induction wakes generalizing p n with
  | nil =>
    unfold _fsm_wait_step_blocking_loop at h
    cases hc : wait_condition p step leave
    · simp only [hc, Bool.false_eq_true, if_false, Option.some.injEq, Prod.mk.injEq] at h
      rw [← h.2]
      exact ⟨hc, by simp⟩
    · simp [hc] at h
  | cons w ws ih =>
    unfold _fsm_wait_step_blocking_loop at h
    cases hc : wait_condition p step leave
    · simp only [hc, Bool.false_eq_true, if_false, Option.some.injEq, Prod.mk.injEq] at h
      rw [← h.2]
      exact ⟨hc, by simp⟩
    · simp only [hc, if_true] at h
      cases hl : _fsm_wait_step_blocking_loop steps ev step leave ws
          (pthread_cond_wait steps ev w p) with
      | none => simp [hl] at h
      | some r =>
        obtain ⟨m, q2⟩ := r
        simp only [hl, Option.some.injEq, Prod.mk.injEq] at h
        obtain ⟨hn, hq⟩ := h
        subst hq hn
        exact ⟨(ih _ _ hl).1, fun _ => Nat.succ_pos _⟩

theorem wait_blocking_eq (steps : Steps) (ev : events_h) (wakes : List (List Tick))
    (p : fsm_pointer) (step : Option Nat) (leave : Nat) (hm : p.mutex = false) :
    _fsm_wait_step_blocking steps ev wakes p step leave =
      (_fsm_wait_step_blocking_loop steps ev step leave wakes { p with mutex := true }).map
        fun r => (r.1, pthread_mutex_unlock r.2) := by
  simp only [_fsm_wait_step_blocking, pthread_mutex_lock, hm, Bool.false_eq_true, if_false]
  cases _fsm_wait_step_blocking_loop steps ev step leave wakes { p with mutex := true } <;> rfl

theorem wait_blocking_spec (steps : Steps) (ev : events_h) (wakes : List (List Tick))
    (p : fsm_pointer) (step : Option Nat) (leave : Nat) (hm : p.mutex = false) :
    ((∃ q, _fsm_wait_step_blocking steps ev wakes p step leave = some (0, q)) ↔
      wait_condition p step leave = false) ∧
    (wait_condition p step leave = false →
      _fsm_wait_step_blocking steps ev wakes p step leave = some (0, p)) ∧
    (∀ n q, _fsm_wait_step_blocking steps ev wakes p step leave = some (n, q) →
      wait_condition q step leave = false ∧ q.mutex = false ∧
      (wait_condition p step leave = true → 0 < n)) := by
  rw [wait_blocking_eq steps ev wakes p step leave hm]
  have hz := wait_blocking_loop_zero steps ev step leave wakes { p with mutex := true }
  have hcond : wait_condition { p with mutex := true } step leave =
      wait_condition p step leave := rfl
  rw [hcond] at hz
  refine ⟨?_, ?_, ?_⟩
  · rw [← hz]
    constructor
    · rintro ⟨q, hq⟩
      cases hl : _fsm_wait_step_blocking_loop steps ev step leave wakes
          { p with mutex := true } with
      | none => simp [hl] at hq
      | some r =>
        obtain ⟨m, q2⟩ := r
        simp only [hl, Option.map_some', Option.some.injEq, Prod.mk.injEq] at hq
        exact ⟨q2, by rw [hq.1]⟩
    · rintro ⟨q, hq⟩
      exact ⟨pthread_mutex_unlock q, by simp [hq]⟩
  · intro hc
    obtain ⟨q, hq⟩ := hz.mpr hc
    have hq2 : q = { p with mutex := true } := by
      cases wakes <;>
        · unfold _fsm_wait_step_blocking_loop at hq
          simp only [hcond, hc, Bool.false_eq_true, if_false, Option.some.injEq,
            Prod.mk.injEq, true_and] at hq
          exact hq.symm
    subst hq2
    rw [hq]
    obtain ⟨t, mu, inbox, cur, rn, hist⟩ := p
    simp only at hm
    subst hm
    rfl
  · intro n q hq
    cases hl : _fsm_wait_step_blocking_loop steps ev step leave wakes
        { p with mutex := true } with
    | none => simp [hl] at hq
    | some r =>
      obtain ⟨m, q2⟩ := r
      simp only [hl, Option.map_some', Option.some.injEq, Prod.mk.injEq] at hq
      obtain ⟨hn, hq⟩ := hq
      subst hn hq
      have := wait_blocking_loop_result steps ev step leave wakes _ _ _ hl
      exact ⟨this.1, rfl, this.2⟩

theorem wait_condition_reach (p : fsm_pointer) (step : Option Nat) :
    wait_condition p step 0 = false ↔ p.current_step = step := by
  simp [wait_condition]

theorem wait_condition_leave (p : fsm_pointer) (step : Option Nat) :
    wait_condition p step 1 = false ↔ p.current_step ≠ step := by
  simp [wait_condition]

/-- C11: with the mutex free, for every pointer and target, `fsm_wait_step_blocking`
returns without a wait exactly when `current_step` is the target and
`fsm_wait_leaving_step_blocking` exactly when it is not, so exactly one of the two
returns without a wait; and whenever either returns, its condition holds of the
`current_step` of the pointer it returns with, the last it looked at. -/
theorem C11_blocking_waits (steps : Steps) (ev : events_h) (wakes : List (List Tick))
    (p : fsm_pointer) (target : Option Nat) (hm : p.mutex = false) :
    ((∃ q, fsm_wait_step_blocking steps ev wakes p target = some (0, q)) ↔
      p.current_step = target) ∧
    ((∃ q, fsm_wait_leaving_step_blocking steps ev wakes p target = some (0, q)) ↔
      p.current_step ≠ target) ∧
    Xor' (∃ q, fsm_wait_step_blocking steps ev wakes p target = some (0, q))
      (∃ q, fsm_wait_leaving_step_blocking steps ev wakes p target = some (0, q)) ∧
    (∀ n q, fsm_wait_step_blocking steps ev wakes p target = some (n, q) →
      q.current_step = target) ∧
    (∀ n q, fsm_wait_leaving_step_blocking steps ev wakes p target = some (n, q) →
      q.current_step ≠ target) := by
  have h0 := wait_blocking_spec steps ev wakes p target 0 hm
  have h1 := wait_blocking_spec steps ev wakes p target 1 hm
  rw [wait_condition_reach] at h0
  rw [wait_condition_leave] at h1
  have a0 : (∃ q, fsm_wait_step_blocking steps ev wakes p target = some (0, q)) ↔
      p.current_step = target := h0.1
  have a1 : (∃ q, fsm_wait_leaving_step_blocking steps ev wakes p target = some (0, q)) ↔
      p.current_step ≠ target := h1.1
  refine ⟨a0, a1, ?_, ?_, ?_⟩
  · rw [a0, a1]
    by_cases h : p.current_step = target
    · exact Or.inl ⟨h, fun hn => hn h⟩
    · exact Or.inr ⟨h, h⟩
  · intro n q hq
    exact (wait_condition_reach q target).mp (h0.2.2 n q hq).1
  · intro n q hq
    exact (wait_condition_leave q target).mp (h1.2.2 n q hq).1

/-- C11, at a concrete input: the started pointer is in step 0; waiting for step 0
returns without a wait, waiting to leave step 0 does not return without a wake and
returns after one wake in which "GO" is signalled and the engine reaches step 1. -/
theorem C11_blocking_waits_witness :
    (∃ q, fsm_wait_step_blocking exampleSteps exampleEvents [] (exampleStarted exampleSteps)
      (some 0) = some (0, q)) ∧
    fsm_wait_leaving_step_blocking exampleSteps exampleEvents []
      (exampleStarted exampleSteps) (some 0) = none ∧
    ((fsm_wait_leaving_step_blocking exampleSteps exampleEvents
      [[Tick.signal (fsm_generate_event "GO" 0), Tick.engine, Tick.engine, Tick.engine]]
      (exampleStarted exampleSteps) (some 0)).map fun r => (r.1, r.2.current_step)) =
      some (1, some 1) :=
  ⟨(C11_blocking_waits exampleSteps exampleEvents [] (exampleStarted exampleSteps) (some 0)
      (by decide)).1.mpr (by decide),
   by decide, by decide⟩

/-- C12, as stated, fails: the engine left step 0 for step 1 and re-entered step 0;
`fsm_wait_leaving_step_blocking` on step 0, called now, does not return without a
wake, nor after a wake in which nothing happened. -/
theorem C12_counterexample :
    entered exampleReentered.thread.log = [0, 1, 0] ∧
    exampleReentered.current_step = some 0 ∧
    exampleReentered.mutex = false ∧
    fsm_wait_leaving_step_blocking exampleSteps exampleEvents [] exampleReentered (some 0) =
      none ∧
    fsm_wait_leaving_step_blocking exampleSteps exampleEvents [[]] exampleReentered (some 0) =
      none := by
  decide

/-- C12, amended: `fsm_wait_leaving_step_blocking` on a step X called while
`current_step` is X (so also after the engine left X and re-entered it) does not
return without a wait; when it returns it has waited at least once and
`current_step` is not X. It is `fsm_wait_step_blocking` on X that returns at
once. -/
theorem C12_wait_leaving_current_step (steps : Steps) (ev : events_h)
    (wakes : List (List Tick)) (p : fsm_pointer) (x : Nat) (hm : p.mutex = false)
    (hc : p.current_step = some x) :
    (¬ ∃ q, fsm_wait_leaving_step_blocking steps ev wakes p (some x) = some (0, q)) ∧
    fsm_wait_leaving_step_blocking steps ev [] p (some x) = none ∧
    (∀ n q, fsm_wait_leaving_step_blocking steps ev wakes p (some x) = some (n, q) →
      0 < n ∧ q.current_step ≠ some x) ∧
    fsm_wait_step_blocking steps ev wakes p (some x) = some (0, p) := by
  have h1 := wait_blocking_spec steps ev wakes p (some x) 1 hm
  have h0 := wait_blocking_spec steps ev wakes p (some x) 0 hm
  have hc1 : wait_condition p (some x) 1 = true := by simp [wait_condition, hc]
  have hc0 : wait_condition p (some x) 0 = false := by simp [wait_condition, hc]
  refine ⟨?_, ?_, ?_, h0.2.1 hc0⟩
  · intro h
    have := h1.1.mp h
    rw [hc1] at this
    cases this
  · simp [fsm_wait_leaving_step_blocking, _fsm_wait_step_blocking, pthread_mutex_lock, hm,
      _fsm_wait_step_blocking_loop, wait_condition, hc]
  · intro n q hq
    have := h1.2.2 n q hq
    exact ⟨this.2.2 hc1, (wait_condition_leave q (some x)).mp this.1⟩

/-- C12 amended, at a concrete input: the pointer that re-entered step 0. -/
theorem C12_wait_leaving_current_step_witness :
    fsm_wait_leaving_step_blocking exampleSteps exampleEvents [] exampleReentered (some 0) =
      none ∧
    fsm_wait_step_blocking exampleSteps exampleEvents [] exampleReentered (some 0) =
      some (0, exampleReentered) :=
  ⟨(C12_wait_leaving_current_step exampleSteps exampleEvents [] exampleReentered 0
      (by decide) (by decide)).2.1,
   (C12_wait_leaving_current_step exampleSteps exampleEvents [] exampleReentered 0
      (by decide) (by decide)).2.2.2⟩

theorem timed_loop_immediate (steps : Steps) (ev : events_h) (step : Option Nat)
    (leave : Nat) (ts : Int × Int) (wakes : List (Nat × List Tick)) (rc : Nat)
    (p : fsm_pointer) (hc : wait_condition p step leave = false) :
    _fsm_wait_step_mstimeout_loop steps ev step leave ts wakes rc p = some (rc, p) := by
  cases wakes <;> simp [_fsm_wait_step_mstimeout_loop, hc]

theorem timed_loop_timeout (steps : Steps) (ev : events_h) (step : Option Nat)
    (leave : Nat) (ts : Int × Int) (wakes : List (Nat × List Tick)) (rc : Nat)
    (p q : fsm_pointer)
    (h : _fsm_wait_step_mstimeout_loop steps ev step leave ts wakes rc p =
      some (ETIMEDOUT, q)) :
    rc = ETIMEDOUT ∨
    ∃ before w after, wakes = before ++ w :: after ∧ w.1 = ETIMEDOUT ∧
      wait_condition (waited steps ev before p) step leave = true ∧
      q = pthread_cond_wait steps ev w.2 (waited steps ev before p) := by
  induction wakes generalizing p rc with
  | nil =>
    unfold _fsm_wait_step_mstimeout_loop at h
    split at h
    · cases h
    · simp only [Option.some.injEq, Prod.mk.injEq] at h
      exact Or.inl h.1
  | cons w ws ih =>
    unfold _fsm_wait_step_mstimeout_loop at h
    split at h
    · rename_i hc
      simp only [pthread_cond_timedwait] at h
      split at h
      · rename_i hw
        simp only [Option.some.injEq, Prod.mk.injEq] at h
        exact Or.inr ⟨[], w, ws, rfl, hw, hc, h.2.symm⟩
      · rename_i hw
        rcases ih _ _ h with h1 | ⟨before, w2, after, hws, hw2, hc2, hq⟩
        · exact absurd h1 hw
        · exact Or.inr ⟨w :: before, w2, after, by simp [hws], hw2, hc2, hq⟩
    · simp only [Option.some.injEq, Prod.mk.injEq] at h
      exact Or.inl h.1

theorem timed_wait_spec (steps : Steps) (ev : events_h) (now : Int × Int)
    (wakes : List (Nat × List Tick)) (p : fsm_pointer) (step : Option Nat)
    (mstimeout leave : Nat) (hm : p.mutex = false) :
    (wait_condition p step leave = false →
      _fsm_wait_step_mstimeout steps ev now wakes p step mstimeout leave = some (0, p)) ∧
    (∀ q, _fsm_wait_step_mstimeout steps ev now wakes p step mstimeout leave =
        some (ETIMEDOUT, q) →
      ∃ before w after, wakes = before ++ w :: after ∧ w.1 = ETIMEDOUT ∧
        wait_condition (waited steps ev before { p with mutex := true }) step leave = true ∧
        q = pthread_mutex_unlock
          (pthread_cond_wait steps ev w.2 (waited steps ev before { p with mutex := true }))) := by
  constructor
  · intro hc
    have hc2 : wait_condition { p with mutex := true } step leave = false := hc
    simp only [_fsm_wait_step_mstimeout, pthread_mutex_lock, hm, Bool.false_eq_true,
      if_false, timed_loop_immediate steps ev step leave _ wakes 0 _ hc2]
    obtain ⟨t, mu, inbox, cur, rn, hist⟩ := p
    simp only at hm
    subst hm
    rfl
  · intro q h
    simp only [_fsm_wait_step_mstimeout, pthread_mutex_lock, hm, Bool.false_eq_true,
      if_false] at h
    cases hl : _fsm_wait_step_mstimeout_loop steps ev step leave (deadline now mstimeout)
        wakes 0 { p with mutex := true } with
    | none => simp [hl] at h
    | some r =>
      obtain ⟨rc, q2⟩ := r
      simp only [hl, Option.some.injEq, Prod.mk.injEq] at h
      obtain ⟨hrc, hq⟩ := h
      subst hrc hq
      rcases timed_loop_timeout steps ev step leave _ wakes 0 _ _ hl with h0 |
        ⟨before, w, after, hws, hw, hc, hq⟩
      · exact absurd h0 (by decide)
      · exact ⟨before, w, after, hws, hw, hc, by rw [hq]⟩

/-- C13: with the mutex free, each timed wait returns 0 and leaves the pointer as
it is, whatever wakes are available, when its condition holds at the call
(`current_step` is the step for `fsm_wait_step_mstimeout`, is not the step for
`fsm_wait_leaving_step_mstimeout`). It returns `ETIMEDOUT`, which is not 0, only
when some timed condition wait returned `ETIMEDOUT` and the condition did not hold
at the check just before that wait. -/
theorem C13_timed_waits (steps : Steps) (ev : events_h) (now : Int × Int)
    (wakes : List (Nat × List Tick)) (p : fsm_pointer) (step : Option Nat)
    (mstimeout : Nat) (hm : p.mutex = false) :
    (p.current_step = step →
      fsm_wait_step_mstimeout steps ev now wakes p step mstimeout = some (0, p)) ∧
    (p.current_step ≠ step →
      fsm_wait_leaving_step_mstimeout steps ev now wakes p step mstimeout = some (0, p)) ∧
    ETIMEDOUT ≠ 0 ∧
    (∀ q, fsm_wait_step_mstimeout steps ev now wakes p step mstimeout =
        some (ETIMEDOUT, q) →
      ∃ before w after, wakes = before ++ w :: after ∧ w.1 = ETIMEDOUT ∧
        (waited steps ev before { p with mutex := true }).current_step ≠ step ∧
        q = pthread_mutex_unlock
          (pthread_cond_wait steps ev w.2
            (waited steps ev before { p with mutex := true }))) ∧
    (∀ q, fsm_wait_leaving_step_mstimeout steps ev now wakes p step mstimeout =
        some (ETIMEDOUT, q) →
      ∃ before w after, wakes = before ++ w :: after ∧ w.1 = ETIMEDOUT ∧
        (waited steps ev before { p with mutex := true }).current_step = step ∧
        q = pthread_mutex_unlock
          (pthread_cond_wait steps ev w.2
            (waited steps ev before { p with mutex := true }))) := by
  have h0 := timed_wait_spec steps ev now wakes p step mstimeout 0 hm
  have h1 := timed_wait_spec steps ev now wakes p step mstimeout 1 hm
  refine ⟨?_, ?_, by decide, ?_, ?_⟩
  · intro hc
    exact h0.1 ((wait_condition_reach p step).mpr hc)
  · intro hc
    exact h1.1 ((wait_condition_leave p step).mpr hc)
  · intro q hq
    obtain ⟨before, w, after, hws, hw, hc, hq2⟩ := h0.2 q hq
    refine ⟨before, w, after, hws, hw, ?_, hq2⟩
    intro hcur
    rw [(wait_condition_reach _ step).mpr hcur] at hc
    cases hc
  · intro q hq
    obtain ⟨before, w, after, hws, hw, hc, hq2⟩ := h1.2 q hq
    refine ⟨before, w, after, hws, hw, ?_, hq2⟩
    by_contra hcur
    rw [(wait_condition_leave _ step).mpr hcur] at hc
    cases hc

/-- C13, at a concrete input: the started pointer is in step 0. The timed wait for
step 0 returns 0 with no wake at all; the timed wait for step 1 returns `ETIMEDOUT`
when its first timed condition wait does. -/
theorem C13_timed_waits_witness :
    fsm_wait_step_mstimeout exampleSteps exampleEvents (5, 0) []
      (exampleStarted exampleSteps) (some 0) 100 = some (0, exampleStarted exampleSteps) ∧
    ((fsm_wait_step_mstimeout exampleSteps exampleEvents (5, 0) [(ETIMEDOUT, [])]
      (exampleStarted exampleSteps) (some 1) 100).map fun r => r.1) = some ETIMEDOUT :=
  ⟨(C13_timed_waits exampleSteps exampleEvents (5, 0) [] (exampleStarted exampleSteps)
      (some 0) 100 (by decide)).1 (by decide),
   by decide⟩

/-- C16: for a clock reading with `0 ≤ tv_nsec < 10^9` and a bound below 2^32
milliseconds, the deadline has `0 ≤ tv_nsec < 10^9` and is the reading plus the
bound, in nanoseconds. No intermediate value overflows: the `unsigned int` product
stays below 2^32 (so the reduction modulo 2^32 changes nothing), `tv_nsec` after
the addition stays below 2^31, the constant `1000 * 1000 * 1000` is below 2^31,
and `tv_sec` only grows, by at most `mstimeout / 1000 + 1`, up to its final
value. -/
theorem C16_deadline (sec nsec : Int) (ms : Nat) (h0 : 0 ≤ nsec) (h1 : nsec < 10 ^ 9)
    (hms : ms < 2 ^ 32) :
    0 ≤ (deadline (sec, nsec) ms).2 ∧
    (deadline (sec, nsec) ms).2 < 10 ^ 9 ∧
    (deadline (sec, nsec) ms).1 * 10 ^ 9 + (deadline (sec, nsec) ms).2 =
      sec * 10 ^ 9 + nsec + (ms : Int) * 10 ^ 6 ∧
    1000 * 1000 * (ms % 1000) < 2 ^ 32 ∧
    nsec + ((1000 * 1000 * (ms % 1000) : Nat) : Int) < 2 ^ 31 ∧
    (1000 * 1000 * 1000 : Int) < 2 ^ 31 ∧
    sec ≤ sec + ((ms / 1000 : Nat) : Int) ∧
    sec + ((ms / 1000 : Nat) : Int) ≤ (deadline (sec, nsec) ms).1 ∧
    (deadline (sec, nsec) ms).1 ≤ sec + ((ms / 1000 : Nat) : Int) + 1 ∧
    (deadline (sec, nsec) ms).1 < sec + 2 ^ 32 := by
  have hprod : 1000 * 1000 * (ms % 1000) < 2 ^ 32 := by omega
  have hmod : 1000 * 1000 * (ms % 1000) % 2 ^ 32 = 1000 * 1000 * (ms % 1000) :=
    Nat.mod_eq_of_lt hprod
  have hnn : (0 : Int) ≤ nsec + ((1000 * 1000 * (ms % 1000) : Nat) : Int) := by omega
  simp only [deadline, hmod]
  rw [Int.tdiv_eq_ediv hnn (by norm_num), Int.tmod_eq_emod hnn (by norm_num)]
  push_cast
  refine ⟨?_, ?_, ?_, hprod, ?_, by norm_num, ?_, ?_, ?_, ?_⟩ <;> omega

/-- C16, at a concrete input: 2.5 s after the reading (7 s, 800000000 ns) is
(10 s, 300000000 ns). -/
theorem C16_deadline_witness :
    (deadline (7, 800000000) 2500).1 * 10 ^ 9 + (deadline (7, 800000000) 2500).2 =
      7 * 10 ^ 9 + 800000000 + ((2500 : Nat) : Int) * 10 ^ 6 ∧
    deadline (7, 800000000) 2500 = (10, 300000000) :=
  ⟨(C16_deadline 7 800000000 2500 (by decide) (by decide) (by decide)).2.2.1, by decide⟩

/-- C15, on the code: a fresh pointer is started at step 0; the engine thread sets
`running` to RUNNING, broadcasts and unlocks (lines 118-124), and before it calls
the entry action (line 125) the caller wakes and `fsm_start_pointer` returns 0: no
entry action has been called yet. -/
theorem C15_start_returns_before_entry_action :
    ((fsm_start_pointer exampleSteps exampleEvents [[Tick.engine, Tick.engine]]
      fsm_create_pointer 0).map
        fun r => (r.1, r.2.running, r.2.thread.pc, r.2.thread.calls, entered r.2.thread.log)) =
      some (0, FSM_STATE_RUNNING, Pc.call 0, 0, []) := by
  decide

/-- C17, on the code: `fsm_start_pointer` on a pointer that is already running
returns `FSM_ERR_NOT_STOPPED` with the mutex still held (line 237 returns without
an unlock), after which `fsm_join_pointer` and the waits on that pointer never get
the mutex; the successful start of the same pointer had released it. -/
theorem C17_start_pointer_error_keeps_mutex :
    ((fsm_start_pointer exampleSteps exampleEvents [[Tick.engine, Tick.engine]]
      fsm_create_pointer 0).map fun r => (r.1, r.2.mutex)) = some (0, false) ∧
    (exampleStarted exampleSteps).mutex = false ∧
    fsm_start_pointer exampleSteps exampleEvents [] (exampleStarted exampleSteps) 1 =
      some (FSM_ERR_NOT_STOPPED, { exampleStarted exampleSteps with mutex := true }) ∧
    fsm_join_pointer exampleSteps exampleEvents [Tick.engine, Tick.engine, Tick.engine]
      { exampleStarted exampleSteps with mutex := true } = none ∧
    fsm_wait_step_blocking exampleSteps exampleEvents []
      { exampleStarted exampleSteps with mutex := true } (some 0) = none := by
  decide

/-! ## The mutex after a call -/

/-- Whenever step entry, a successful `fsm_start_pointer`, `fsm_join_pointer`, a
blocking wait or a timed wait returns, the mutex of the pointer is free; the
`FSM_ERR_NOT_STOPPED` return of `fsm_start_pointer` is the one return that leaves
it held. -/
theorem mutex_after_return (steps : Steps) (ev : events_h) (p : fsm_pointer) :
    (∀ s q, fsm_start_step_section p s = some q → q.mutex = false) ∧
    (∀ wakes init_step q, fsm_start_pointer steps ev wakes p init_step = some (0, q) →
      q.mutex = false) ∧
    (∀ wakes init_step q,
      fsm_start_pointer steps ev wakes p init_step = some (FSM_ERR_NOT_STOPPED, q) →
      q.mutex = true) ∧
    (∀ sched q, fsm_join_pointer steps ev sched p = some q → q.mutex = false) ∧
    (∀ wakes step leave n q,
      _fsm_wait_step_blocking steps ev wakes p step leave = some (n, q) →
      q.mutex = false) ∧
    (∀ now wakes step mstimeout leave rc q,
      _fsm_wait_step_mstimeout steps ev now wakes p step mstimeout leave = some (rc, q) →
      q.mutex = false) := by
  refine ⟨?_, ?_, ?_, ?_, ?_, ?_⟩
  · intro s q h
    unfold fsm_start_step_section pthread_mutex_lock at h
    cases hm : p.mutex
    · simp only [hm, Bool.false_eq_true, if_false, Option.some.injEq] at h
      rw [← h]
      rfl
    · simp [hm] at h
  · intro wakes init_step q h
    cases hm : p.mutex
    · by_cases hr : p.running = FSM_STATE_STOPPED
      · rw [start_pointer_stopped steps ev wakes p init_step hm hr] at h
        cases hw : fsm_start_pointer_wait steps ev wakes
            (fsm_start_pointer_spawn { p with mutex := true } init_step) with
        | none => simp [hw] at h
        | some q2 =>
          simp only [hw, Option.map_some', Option.some.injEq, Prod.mk.injEq, true_and] at h
          rw [← h]
          rfl
      · rw [start_pointer_not_stopped steps ev wakes p init_step hm hr] at h
        simp [FSM_ERR_NOT_STOPPED] at h
    · simp [fsm_start_pointer, pthread_mutex_lock, hm] at h
  · intro wakes init_step q h
    cases hm : p.mutex
    · by_cases hr : p.running = FSM_STATE_STOPPED
      · rw [start_pointer_stopped steps ev wakes p init_step hm hr] at h
        cases hw : fsm_start_pointer_wait steps ev wakes
            (fsm_start_pointer_spawn { p with mutex := true } init_step) with
        | none => simp [hw] at h
        | some q2 => simp [hw, FSM_ERR_NOT_STOPPED] at h
      · rw [start_pointer_not_stopped steps ev wakes p init_step hm hr] at h
        simp only [Option.some.injEq, Prod.mk.injEq, true_and] at h
        rw [← h]
    · simp [fsm_start_pointer, pthread_mutex_lock, hm] at h
  · intro sched q h
    cases hm : p.mutex
    · by_cases hr : p.running = FSM_STATE_RUNNING
      · rw [join_pointer_running steps ev sched p hm hr] at h
        split at h
        · cases h
          rfl
        · cases h
      · rw [join_pointer_not_running steps ev sched p hm hr] at h
        cases h
        exact hm
    · rw [join_pointer_locked steps ev sched p hm] at h
      cases h
  · intro wakes step leave n q h
    cases hm : p.mutex
    · exact ((wait_blocking_spec steps ev wakes p step leave hm).2.2 n q h).2.1
    · simp [_fsm_wait_step_blocking, pthread_mutex_lock, hm] at h
  · intro now wakes step mstimeout leave rc q h
    unfold _fsm_wait_step_mstimeout pthread_mutex_lock at h
    cases hm : p.mutex
    · simp only [hm, Bool.false_eq_true, if_false] at h
      split at h
      · cases h
      · cases h
        rfl
    · simp [hm] at h

end Fsm
